import Mathlib

/-!
# Postman: the AMQP transport (`async/amqp.go`)

A shallow embedding of the package-level state and functions of
`async/amqp.go`, and the properties of them that the specification states.

Modelling choices
* The package-level variables become the fields of `State`; every function
  takes the state and returns its Go result together with the new state.
* The AMQP client library and the UUID generator are the environment.  Their
  answers are given by a `Broker`: for each library entry point a function of
  the history of calls made so far and of the arguments.  Every library call
  the code makes is appended, with its answer, to the ghost field
  `State.calls`, in program order.
* A Go `error` is its message (`Error := String`); `fmt.Errorf("... %s", err)`
  is string concatenation.  A method call on a nil pointer is `Res.panic`.
* Which connections and channels are open is read off the history
  (`Resources.step`): besides the client's own `Close` calls, an error answered
  to `QueueDeclare`, `QueueInspect` or `Consume` is an AMQP channel exception, by
  which the broker closes the channel.
* `mutex.Lock()` / `mutex.Unlock()` guard single map accesses; the model is
  sequential, so they do not appear.
* The bodies of the goroutines started by the two consume functions are the
  functions `responseLoop` and `requestLoop` over the finite list of
  deliveries the Go channel yields before it is closed.
-/

namespace Postman

/-! ## Data -/

/-- A Go `[]byte`. -/
abbrev Bytes := List UInt8

/-- A Go `error` value that is not nil, by its message. -/
abbrev Error := String

/-- Identity of an `*amqp.Connection`. -/
abbrev ConnId := Nat

/-- Identity of an `*amqp.Channel`. -/
abbrev Chan := Nat

/-- An `amqp.Table`; the code only ever passes `nil`. -/
abbrev Table := Option (List (String × String))

/-- A `uuid.UUID`: sixteen bytes. -/
structure UUID where
  bytes : List UInt8
  size : bytes.length = 16
deriving DecidableEq

/-- The constant `amqp.Persistent` of the client library. -/
def amqp.Persistent : Nat := 2

/-- The fields of `amqp.Publishing` that the code sets; all others keep their
zero value. -/
structure Publishing where
  ContentType : String
  Body : Bytes
  DeliveryMode : Nat
deriving DecidableEq, Repr

/-- An `amqp.Delivery`, as far as the consumer loops use it. -/
structure Delivery where
  Body : Bytes
  DeliveryTag : Nat
deriving DecidableEq, Repr

/-- Which of the two consumer goroutines. -/
inductive Loop where
  | response
  | request
deriving DecidableEq, Repr

/-- One library call made by the code, with the answer it got, or the start of
a goroutine. -/
inductive Event where
  /-- The call `amqp.Dial(uri)`; `conn` is the connection returned when `err` is nil. -/
  | dial (uri : String) (conn : ConnId) (err : Option Error)
  /-- The call `conn.Channel()`; `ch` is the channel returned when `err` is nil. -/
  | channel (conn : ConnId) (ch : Chan) (err : Option Error)
  /-- The call `ch.QueueDeclare(name, durable, autoDelete, exclusive, noWait, args)`. -/
  | queueDeclare (ch : Chan) (name : String) (durable autoDelete exclusive noWait : Bool)
      (args : Table) (err : Option Error)
  /-- The call `ch.QueueInspect(name)`. -/
  | queueInspect (ch : Chan) (name : String) (err : Option Error)
  /-- The call `ch.Consume(queue, consumer, autoAck, exclusive, noLocal, noWait, args)`. -/
  | consume (ch : Chan) (queue consumer : String) (autoAck exclusive noLocal noWait : Bool)
      (args : Table) (err : Option Error)
  /-- The call `ch.Publish(exchange, key, mandatory, immediate, msg)`. -/
  | publish (ch : Chan) (exchange key : String) (mandatory immediate : Bool)
      (msg : Publishing) (err : Option Error)
  /-- The call `uuid.NewV4()`. -/
  | newV4 (u : UUID)
  /-- The call `ch.Close()`. -/
  | channelClose (ch : Chan)
  /-- The call `conn.Close()`. -/
  | connClose (conn : ConnId)
  /-- A `go func() { for d := range msgs ... }()` statement. -/
  | go (loop : Loop)
deriving DecidableEq

/-- The environment: what the AMQP client library and the UUID generator answer.
Each answer may depend on everything that happened before (`List Event`).
`none` is a nil error. -/
structure Broker where
  Dial : List Event → String → Option Error
  /-- When `Dial` fails: does it still hand back a connection (one that is already
  closed, as after a failed handshake) rather than nil. -/
  DialConn : List Event → String → Bool
  Channel : List Event → ConnId → Option Error
  QueueDeclare : List Event → Chan → String → Bool → Bool → Bool → Bool → Table → Option Error
  QueueInspect : List Event → Chan → String → Option Error
  Consume : List Event → Chan → String → String → Bool → Bool → Bool → Bool → Table →
    Option Error
  Publish : List Event → Chan → String → String → Bool → Bool → Publishing → Option Error
  NewV4 : List Event → UUID

/-- Result of a Go function that returns `(value, error)` (or just `error`, with
`α := Unit`), or panics. -/
inductive Res (α : Type) where
  | ok (a : α)
  | err (e : Error)
  | panic
deriving DecidableEq, Repr

/-- The Go statement `return err`, for a function whose only result is an `error`. -/
def Res.ofError : Option Error → Res Unit
  | none => .ok ()
  | some e => .err e

/-- The package-level variables of `async/amqp.go`, and the call history. -/
structure State where
  /-- `var OnNewResponse func([]byte)`: is it set. -/
  OnNewResponse : Bool
  /-- `var OnNewRequest func([]byte)`: is it set. -/
  OnNewRequest : Bool
  conn : Option ConnId
  responseChannel : Option Chan
  requestChannel : Option Chan
  sendChannels : String → Option Chan
  responseQueueName : String
  serviceName : String
  /-- Ghost: every library call made so far, oldest first. -/
  calls : List Event

/-- The state when the package has been loaded: the zero values, and
`sendChannels = map[string]*amqp.Channel{}`. -/
def State.init : State where
  OnNewResponse := false
  OnNewRequest := false
  conn := none
  responseChannel := none
  requestChannel := none
  sendChannels := fun _ => none
  responseQueueName := ""
  serviceName := ""
  calls := []

/-- Append an event to the history. -/
def State.log (st : State) (e : Event) : State :=
  { st with calls := st.calls ++ [e] }

/-- The Go statement `sendChannels[queueName] = ch`. -/
def State.setSendChannel (st : State) (queueName : String) (ch : Chan) : State :=
  { st with sendChannels := fun k => if k = queueName then some ch else st.sendChannels k }

/-! ## The library calls -/

/-- The call `amqp.Dial(uri)`, with its two results `(conn, err)`: a fresh
connection and nil, or an error together with nil or with a connection that is
already closed.  A connection or channel is numbered by the position in the
history of the call that returned it, so that no two of them share a number. -/
def amqp.Dial (b : Broker) (uri : String) (st : State) :
    (Option ConnId × Option Error) × State :=
  match b.Dial st.calls uri with
  | none => ((some st.calls.length, none), st.log (.dial uri st.calls.length none))
  | some e =>
    ((if b.DialConn st.calls uri then some st.calls.length else none, some e),
      st.log (.dial uri st.calls.length (some e)))

/-- The call `c.Channel()` on a connection that is not nil: a fresh channel, or an error. -/
def amqp.Connection.Channel (b : Broker) (c : ConnId) (st : State) :
    Except Error Chan × State :=
  match b.Channel st.calls c with
  | none => (.ok st.calls.length, st.log (.channel c st.calls.length none))
  | some e => (.error e, st.log (.channel c st.calls.length (some e)))

/-- The call `ch.QueueDeclare(...)`; the `amqp.Queue` it returns is never used. -/
def amqp.Channel.QueueDeclare (b : Broker) (ch : Chan) (name : String)
    (durable autoDelete exclusive noWait : Bool) (args : Table) (st : State) :
    Option Error × State :=
  let r := b.QueueDeclare st.calls ch name durable autoDelete exclusive noWait args
  (r, st.log (.queueDeclare ch name durable autoDelete exclusive noWait args r))

/-- The call `ch.QueueInspect(name)`; the `amqp.Queue` it returns is never used. -/
def amqp.Channel.QueueInspect (b : Broker) (ch : Chan) (name : String) (st : State) :
    Option Error × State :=
  let r := b.QueueInspect st.calls ch name
  (r, st.log (.queueInspect ch name r))

/-- The call `ch.Consume(...)`; the delivery stream is the input of the loops below. -/
def amqp.Channel.Consume (b : Broker) (ch : Chan) (queue consumer : String)
    (autoAck exclusive noLocal noWait : Bool) (args : Table) (st : State) :
    Option Error × State :=
  let r := b.Consume st.calls ch queue consumer autoAck exclusive noLocal noWait args
  (r, st.log (.consume ch queue consumer autoAck exclusive noLocal noWait args r))

/-- The call `ch.Publish(exchange, key, mandatory, immediate, msg)`. -/
def amqp.Channel.Publish (b : Broker) (ch : Chan) (exchange key : String)
    (mandatory immediate : Bool) (msg : Publishing) (st : State) : Option Error × State :=
  let r := b.Publish st.calls ch exchange key mandatory immediate msg
  (r, st.log (.publish ch exchange key mandatory immediate msg r))

/-! ## Textual form of a UUID -/

/-- One lower-case hexadecimal digit. -/
def hexDigit (n : Nat) : Char :=
  if n < 10 then Char.ofNat (48 + n) else Char.ofNat (87 + n)

/-- Lower-case hexadecimal encoding, two digits per byte (`hex.Encode`). -/
def hexEncode : List UInt8 → List Char
  | [] => []
  | x :: xs => hexDigit (x.toNat / 16) :: hexDigit (x.toNat % 16) :: hexEncode xs

/-- The value of a lower-case hexadecimal digit (sixteen for any other character). -/
def hexValue (c : Char) : Nat :=
  if 48 ≤ c.toNat ∧ c.toNat < 58 then c.toNat - 48
  else if 97 ≤ c.toNat ∧ c.toNat < 103 then c.toNat - 87
  else 16

/-- The method `UUID.String()` of the `go.uuid` package, which `%s` formats a
`uuid.UUID` with: the canonical form `xxxxxxxx-xxxx-xxxx-xxxx-xxxxxxxxxxxx`. -/
def UUID.String (u : UUID) : String :=
  String.mk
    (hexEncode (u.bytes.take 4) ++ '-' ::
      (hexEncode ((u.bytes.drop 4).take 2) ++ '-' ::
        (hexEncode ((u.bytes.drop 6).take 2) ++ '-' ::
          (hexEncode ((u.bytes.drop 8).take 2) ++ '-' ::
            hexEncode (u.bytes.drop 10)))))

/-- The call `uuid.NewV4()`. -/
def uuid.NewV4 (b : Broker) (st : State) : UUID × State :=
  let u := b.NewV4 st.calls
  (u, st.log (.newV4 u))

/-! ## The functions of `async/amqp.go` -/

/-- `getRequestQueueName`: `fmt.Sprintf("postman.req.%s", serviceName)`. -/
def getRequestQueueName (st : State) : String :=
  "postman.req." ++ st.serviceName

/-- `getResponseQueueName`: `fmt.Sprintf("postman.resp.%s", uuid.NewV4())`. -/
def getResponseQueueName (b : Broker) (st : State) : String × State :=
  let (uniqid, st) := uuid.NewV4 b st
  ("postman.resp." ++ uniqid.String, st)

/-- `declareResponseChannelAndQueue`.  The assignment
`responseChannel, err = conn.Channel()` stores nil when the channel cannot be
opened. -/
def declareResponseChannelAndQueue (b : Broker) (st : State) : Res Unit × State :=
  match st.conn with
  | none => (.panic, st)
  | some c =>
    match amqp.Connection.Channel b c st with
    | (.error e, st) => (.err e, { st with responseChannel := none })
    | (.ok ch, st) =>
      let st := { st with responseChannel := some ch }
      let (name, st) := getResponseQueueName b st
      let st := { st with responseQueueName := name }
      let (err, st) := amqp.Channel.QueueDeclare b ch st.responseQueueName
          true   -- Durable
          false  -- Delete when unused
          true   -- Exclusive
          false  -- No-wait
          none st
      (Res.ofError err, st)

/-- `ensureRequestQueue`. -/
def ensureRequestQueue (b : Broker) (st : State) : Res Unit × State :=
  match st.conn with
  | none => (.panic, st)
  | some c =>
    match amqp.Connection.Channel b c st with
    | (.error e, st) => (.err e, st)
    | (.ok ch, st) =>
      let (err, st) := amqp.Channel.QueueDeclare b ch (getRequestQueueName st)
          true   -- Durable
          true   -- Delete when unused
          false  -- Exclusive
          false  -- No-wait
          none st
      (Res.ofError err, st)

/-- `Close`; what the two `Close` calls return is dropped. -/
def Close (st : State) : State :=
  let st := match st.responseChannel with
    | some ch => st.log (.channelClose ch)
    | none => st
  match st.conn with
  | some c => st.log (.connClose c)
  | none => st

/-- `consumeReponseMessages`, up to and including the `go` statement. -/
def consumeReponseMessages (b : Broker) (st : State) : Res Unit × State :=
  match st.responseChannel with
  | none => (.panic, st)
  | some ch =>
    match amqp.Channel.Consume b ch st.responseQueueName ""
        true   -- Auto ack
        true   -- Exclusive
        false  -- No-local
        false  -- No-wait
        none st with
    | (some e, st) => (.err e, st)
    | (none, st) => (.ok (), st.log (.go .response))

/-- `consumeRequestMessages`, up to and including the `go` statement. -/
def consumeRequestMessages (b : Broker) (st : State) : Res Unit × State :=
  match st.responseChannel with
  | none => (.panic, st)
  | some ch =>
    match amqp.Channel.Consume b ch (getRequestQueueName st) ""
        false  -- Auto ack
        false  -- Exclusive
        false  -- No-local
        false  -- No-wait
        none st with
    | (some e, st) => (.err e, st)
    | (none, st) => (.ok (), st.log (.go .request))

/-- `Connect`.  The assignment `conn, err = amqp.Dial(uri)` stores whatever the
dial handed back, also when it failed. -/
def Connect (b : Broker) (uri service : String) (st : State) : Res Unit × State :=
  let st := { st with serviceName := service }
  let ((c, err), st) := amqp.Dial b uri st
  let st := { st with conn := c }
  match err with
  | some e => (.err ("Unable to connect to the AMQP server: " ++ e), st)
  | none =>
    match declareResponseChannelAndQueue b st with
    | (.panic, st) => (.panic, st)
    | (.err e, st) => (.err ("Error creating the AMQP response channel: " ++ e), st)
    | (.ok (), st) =>
      match ensureRequestQueue b st with
      | (.panic, st) => (.panic, st)
      | (.err e, st) => (.err ("Error creating the AMQP request queue: " ++ e), st)
      | (.ok (), st) =>
        match consumeReponseMessages b st with
        | (.panic, st) => (.panic, st)
        | (.err e, st) => (.err ("Response queue consume error: " ++ e), st)
        | (.ok (), st) =>
          match consumeRequestMessages b st with
          | (.panic, st) => (.panic, st)
          | (.err e, st) => (.err ("Request queue consume error: " ++ e), st)
          | (.ok (), st) => (.ok (), st)

/-- `queueExists`. -/
def queueExists (b : Broker) (ch : Chan) (queueName : String) (st : State) : Bool × State :=
  let (err, st) := amqp.Channel.QueueInspect b ch queueName st
  match err with
  | none => (true, st)
  | some _ => (false, st)

/-- `getOrCreateChannelForQueue`.  The first `match` is the locked map read
`ch, ok := sendChannels[queueName]`. -/
def getOrCreateChannelForQueue (b : Broker) (queueName : String) (st : State) :
    Res Chan × State :=
  match st.sendChannels queueName with
  | some ch => (.ok ch, st)
  | none =>
    -- There is no channel in the map: open a new one and save it in the cache.
    match st.conn with
    | none => (.panic, st)
    | some c =>
      match amqp.Connection.Channel b c st with
      | (.error e, st) => (.err e, st)
      | (.ok ch, st) =>
        match queueExists b ch queueName st with
        | (false, st) =>
          (.err ("No queue declared for the service \x27" ++ queueName ++ "\x27"), st)
        | (true, st) => (.ok ch, st.setSendChannel queueName ch)

/-- `publishMessage`. -/
def publishMessage (b : Broker) (ch : Chan) (message : Bytes) (queueName : String)
    (st : State) : Res Unit × State :=
  let (err, st) := amqp.Channel.Publish b ch
      ""         -- Exchange, we don't use exchange
      queueName
      false      -- Mandatory
      false      -- Immediate?
      { ContentType := "application/octet-stream"
        Body := message
        DeliveryMode := amqp.Persistent } st
  (Res.ofError err, st)

/-- `sendMessageToQueue`. -/
def sendMessageToQueue (b : Broker) (message : Bytes) (queueName : String) (st : State) :
    Res Unit × State :=
  match getOrCreateChannelForQueue b queueName st with
  | (.panic, st) => (.panic, st)
  | (.err e, st) => (.err e, st)
  | (.ok ch, st) => publishMessage b ch message queueName st

/-! ## The consumer goroutines -/

/-- What a consumer goroutine does, in program order. -/
inductive LoopEvent where
  /-- The statement `go OnNewResponse(d.Body)` or `go OnNewRequest(d.Body)`. -/
  | goHook (loop : Loop) (body : Bytes)
  /-- The call `processMessageResponse(d.Body)` or `processMessageRequest(d.Body)`. -/
  | process (loop : Loop) (body : Bytes)
  /-- The call `log.Error(err)`. -/
  | logError (e : Error)
  /-- The call `d.Ack(multiple)` on the delivery with this tag. -/
  | ack (tag : Nat) (multiple : Bool)
deriving DecidableEq, Repr

/-- The functions `processMessageResponse` and `processMessageRequest` are defined
in another file of the package; the loops take them as a parameter: any function
of the body and the state that returns an error or nil. -/
abbrev Processor := Bytes → State → Option Error × State

/-- The goroutine of `consumeReponseMessages`, over the deliveries `msgs` yields. -/
def responseLoop (processMessageResponse : Processor) :
    List Delivery → State → List LoopEvent × State
  | [], st => ([], st)
  | d :: msgs, st =>
    let hook := if st.OnNewResponse then [LoopEvent.goHook .response d.Body] else []
    let (err, st) := processMessageResponse d.Body st
    let logged := match err with
      | some e => [LoopEvent.logError e]
      | none => []
    let (rest, st) := responseLoop processMessageResponse msgs st
    (hook ++ LoopEvent.process .response d.Body :: logged ++ rest, st)

/-- The goroutine of `consumeRequestMessages`, over the deliveries `msgs` yields.
Whatever `processMessageRequest` returns is dropped. -/
def requestLoop (processMessageRequest : Processor) :
    List Delivery → State → List LoopEvent × State
  | [], st => ([], st)
  | d :: msgs, st =>
    let hook := if st.OnNewRequest then [LoopEvent.goHook .request d.Body] else []
    let (_, st) := processMessageRequest d.Body st
    let (rest, st) := requestLoop processMessageRequest msgs st
    (hook ++ LoopEvent.process .request d.Body :: LoopEvent.ack d.DeliveryTag false :: rest, st)

/-! ## Sequences of publisher operations -/

/-- A call of one of the two functions that touch the `sendChannels` cache. -/
inductive Op where
  | getOrCreateChannelForQueue (queueName : String)
  | sendMessageToQueue (message : Bytes) (queueName : String)
deriving DecidableEq, Repr

/-- Run one call; `true` when it panicked. -/
def Op.run (b : Broker) : Op → State → Bool × State
  | .getOrCreateChannelForQueue q, st =>
    match Postman.getOrCreateChannelForQueue b q st with
    | (.panic, st) => (true, st)
    | (_, st) => (false, st)
  | .sendMessageToQueue m q, st =>
    match Postman.sendMessageToQueue b m q st with
    | (.panic, st) => (true, st)
    | (_, st) => (false, st)

/-- Run the calls one after the other; a panic ends the run. -/
def runOps (b : Broker) : List Op → State → State
  | [], st => st
  | op :: ops, st =>
    match op.run b st with
    | (true, st) => st
    | (false, st) => runOps b ops st

/-- A call of one of the functions of the package that touch the broker. -/
inductive Call where
  | Connect (uri service : String)
  | Close
  | getOrCreateChannelForQueue (queueName : String)
  | sendMessageToQueue (message : Bytes) (queueName : String)
deriving DecidableEq, Repr

/-- The state after one call. -/
def Call.run (b : Broker) : Call → State → State
  | .Connect uri service, st => (Postman.Connect b uri service st).2
  | .Close, st => Postman.Close st
  | .getOrCreateChannelForQueue q, st => (Postman.getOrCreateChannelForQueue b q st).2
  | .sendMessageToQueue m q, st => (Postman.sendMessageToQueue b m q st).2

/-- The state after a sequence of calls. -/
def runCalls (b : Broker) (calls : List Call) (st : State) : State :=
  calls.foldl (fun st c => c.run b st) st

/-! ## Views of the call history -/

/-- The arguments of a `QueueDeclare` call. -/
structure Declared where
  ch : Chan
  name : String
  durable : Bool
  autoDelete : Bool
  exclusive : Bool
  noWait : Bool
deriving DecidableEq, Repr

/-- The `QueueDeclare` calls of a history, in order. -/
def declares : List Event → List Declared
  | [] => []
  | .queueDeclare ch name durable autoDelete exclusive noWait _ _ :: es =>
    { ch := ch, name := name, durable := durable, autoDelete := autoDelete,
      exclusive := exclusive, noWait := noWait } :: declares es
  | _ :: es => declares es

/-- The UUIDs drawn by the `uuid.NewV4` calls of a history, in order. -/
def drawn : List Event → List UUID
  | [] => []
  | .newV4 u :: es => u :: drawn es
  | _ :: es => drawn es

/-! ## Open connections and channels -/

/-- Connections, and channels each with its connection. -/
structure Resources where
  conns : List ConnId
  chans : List (Chan × ConnId)
deriving DecidableEq, Repr

/-- Effect of one call on the connections and channels that are open.  A
successful `Dial` or `Channel` opens one; `ch.Close()` closes the channel and
`conn.Close()` the connection with every channel on it.  An error answered to
`QueueDeclare`, `QueueInspect` or `Consume` is an AMQP channel exception (such as
404 NOT_FOUND for a queue that does not exist): the broker closes the channel
the call was made on before the call returns.  An error is taken to be of this
channel level; the loss of the whole connection is not modelled. -/
def Resources.step (r : Resources) : Event → Resources
  | .dial _ c none => { r with conns := r.conns ++ [c] }
  | .channel c ch none => { r with chans := r.chans ++ [(ch, c)] }
  | .channelClose ch => { r with chans := r.chans.filter (fun p => p.1 ≠ ch) }
  | .connClose c =>
    { conns := r.conns.filter (fun k => k ≠ c), chans := r.chans.filter (fun p => p.2 ≠ c) }
  | .queueDeclare ch _ _ _ _ _ _ (some _) =>
    { r with chans := r.chans.filter (fun p => p.1 ≠ ch) }
  | .queueInspect ch _ (some _) => { r with chans := r.chans.filter (fun p => p.1 ≠ ch) }
  | .consume ch _ _ _ _ _ _ _ (some _) =>
    { r with chans := r.chans.filter (fun p => p.1 ≠ ch) }
  | _ => r

/-- The connections and channels open after a history of calls. -/
def held (calls : List Event) : Resources :=
  calls.foldl Resources.step { conns := [], chans := [] }

/-- The open connections. -/
def openConns (st : State) : List ConnId := (held st.calls).conns

/-- The open channels. -/
def openChans (st : State) : List Chan := (held st.calls).chans.map Prod.fst

/-- The `closed` state of the specification: no connection and no channel is open. -/
def isClosed (st : State) : Prop := openConns st = [] ∧ openChans st = []

instance (st : State) : Decidable (isClosed st) := by
  unfold isClosed; infer_instance

/-- Every open channel has a number below the length of the history: it was
returned by one of its calls. -/
def numbered (calls : List Event) : Prop :=
  ∀ p ∈ (held calls).chans, p.1 < calls.length

/-- The calls made since the history had length `n`. -/
def State.since (st : State) (n : Nat) : List Event := st.calls.drop n

/-- Is the event a `Close` call. -/
def Event.isClose : Event → Bool
  | .channelClose _ => true
  | .connClose _ => true
  | _ => false

/-- Is the event a `Publish` call. -/
def Event.isPublish : Event → Bool
  | .publish .. => true
  | _ => false

/-- The arguments of a `Consume` call. -/
structure Consumed where
  ch : Chan
  queue : String
  consumer : String
  autoAck : Bool
  exclusive : Bool
  noLocal : Bool
  noWait : Bool
deriving DecidableEq, Repr

/-- The `Consume` calls of a history, in order. -/
def consumes : List Event → List Consumed
  | [] => []
  | .consume ch queue consumer autoAck exclusive noLocal noWait _ _ :: es =>
    { ch := ch, queue := queue, consumer := consumer, autoAck := autoAck,
      exclusive := exclusive, noLocal := noLocal, noWait := noWait } :: consumes es
  | _ :: es => consumes es

/-- The error a library call answered; `none` for nil and for the events that
have no answer. -/
def Event.error : Event → Option Error
  | .dial _ _ e => e
  | .channel _ _ e => e
  | .queueDeclare _ _ _ _ _ _ _ e => e
  | .queueInspect _ _ e => e
  | .consume _ _ _ _ _ _ _ _ e => e
  | .publish _ _ _ _ _ _ e => e
  | _ => none

/-- The channels the successful `Channel` calls of a history returned. -/
def opened : List Event → List Chan
  | [] => []
  | .channel _ ch none :: es => ch :: opened es
  | _ :: es => opened es

/-- The calls of a `Connect` in which every step succeeds, when the history had
length `n` before it and the UUID drawn is `u`. -/
def connectCalls (uri service : String) (n : Nat) (u : UUID) : List Event :=
  [.dial uri n none,
   .channel n (n + 1) none,
   .newV4 u,
   .queueDeclare (n + 1) ("postman.resp." ++ u.String) true false true false none none,
   .channel n (n + 4) none,
   .queueDeclare (n + 4) ("postman.req." ++ service) true true false false none none,
   .consume (n + 1) ("postman.resp." ++ u.String) "" true true false false none none,
   .go .response,
   .consume (n + 1) ("postman.req." ++ service) "" false false false false none none,
   .go .request]

/-- Is the loop event the start of an observer hook. -/
def LoopEvent.isHook : LoopEvent → Bool
  | .goHook _ _ => true
  | _ => false

/-- The queue name a publisher operation is called with. -/
def Op.queueName : Op → String
  | .getOrCreateChannelForQueue q => q
  | .sendMessageToQueue _ q => q

/-! ## Concrete brokers, for the examples -/

/-- The UUID `00010203-0405-0607-0809-0a0b0c0d0e0f`. -/
def uuidA : UUID := ⟨[0, 1, 2, 3, 4, 5, 6, 7, 8, 9, 10, 11, 12, 13, 14, 15], rfl⟩

/-- The UUID `ff010203-0405-0607-0809-0a0b0c0d0e0f`. -/
def uuidB : UUID := ⟨[255, 1, 2, 3, 4, 5, 6, 7, 8, 9, 10, 11, 12, 13, 14, 15], rfl⟩

/-- A broker on which every call succeeds, except the inspection of a queue
whose name is not in `queues`. -/
def brokerWith (queues : List String) (u : UUID) : Broker where
  Dial := fun _ _ => none
  DialConn := fun _ _ => false
  Channel := fun _ _ => none
  QueueDeclare := fun _ _ _ _ _ _ _ _ => none
  QueueInspect := fun _ _ name => if name ∈ queues then none else some "NOT_FOUND"
  Consume := fun _ _ _ _ _ _ _ _ _ => none
  Publish := fun _ _ _ _ _ _ _ => none
  NewV4 := fun _ => u

/-- The state after a first, successful `Connect` against `brokerWith queues u`. -/
def connected (queues : List String) (u : UUID) : State :=
  (Connect (brokerWith queues u) "amqp://localhost" "svc" State.init).2

/-- The state in which `Connect` calls `declareResponseChannelAndQueue`: the service
name is set and the dial has succeeded. -/
def dialled (b : Broker) (uri service : String) : State :=
  { (amqp.Dial b uri { State.init with serviceName := service }).2 with conn := some 0 }

/-- A request processor that fails on every body, and leaves a mark in the state:
it appends the length of the body to `serviceName`. -/
def failingProcessor : Processor := fun body st =>
  (some "cannot decode",
    { st with serviceName := st.serviceName ++ "+" ++ toString body.length })

/-! # Properties -/

/-! ## The publishing-channel cache -/

theorem getOrCreate_hit (b : Broker) (q : String) (st : State) (ch : Chan)
    (h : st.sendChannels q = some ch) :
    getOrCreateChannelForQueue b q st = (.ok ch, st) := by
  simp [getOrCreateChannelForQueue, h]

theorem getOrCreate_nil (b : Broker) (q : String) (st : State)
    (h : st.sendChannels q = none) (hc : st.conn = none) :
    getOrCreateChannelForQueue b q st = (.panic, st) := by
  simp [getOrCreateChannelForQueue, h, hc]

theorem getOrCreate_channel_err (b : Broker) (q : String) (st : State) (c : ConnId) (e : Error)
    (h : st.sendChannels q = none) (hc : st.conn = some c)
    (hb : b.Channel st.calls c = some e) :
    getOrCreateChannelForQueue b q st
      = (.err e, st.log (.channel c st.calls.length (some e))) := by
  simp [getOrCreateChannelForQueue, h, hc, amqp.Connection.Channel, hb]

theorem getOrCreate_missing (b : Broker) (q : String) (st : State) (c : ConnId) (e : Error)
    (h : st.sendChannels q = none) (hc : st.conn = some c)
    (hb : b.Channel st.calls c = none)
    (hi : b.QueueInspect (st.calls ++ [.channel c st.calls.length none]) st.calls.length q
      = some e) :
    getOrCreateChannelForQueue b q st
      = (.err ("No queue declared for the service \x27" ++ q ++ "\x27"),
          (st.log (.channel c st.calls.length none)).log
            (.queueInspect st.calls.length q (some e))) := by
  simp [getOrCreateChannelForQueue, h, hc, amqp.Connection.Channel, hb, queueExists,
    amqp.Channel.QueueInspect, State.log, hi]

theorem getOrCreate_insert (b : Broker) (q : String) (st : State) (c : ConnId)
    (h : st.sendChannels q = none) (hc : st.conn = some c)
    (hb : b.Channel st.calls c = none)
    (hi : b.QueueInspect (st.calls ++ [.channel c st.calls.length none]) st.calls.length q
      = none) :
    getOrCreateChannelForQueue b q st
      = (.ok st.calls.length,
          ((st.log (.channel c st.calls.length none)).log
            (.queueInspect st.calls.length q none)).setSendChannel q st.calls.length) := by
  simp [getOrCreateChannelForQueue, h, hc, amqp.Connection.Channel, hb, queueExists,
    amqp.Channel.QueueInspect, State.log, hi]

/-- The five ways through `getOrCreateChannelForQueue`. -/
theorem getOrCreate_cases (b : Broker) (q : String) (st : State) :
    (∃ ch, st.sendChannels q = some ch ∧ getOrCreateChannelForQueue b q st = (.ok ch, st)) ∨
    (st.sendChannels q = none ∧ getOrCreateChannelForQueue b q st = (.panic, st)) ∨
    (∃ c e, st.sendChannels q = none ∧ getOrCreateChannelForQueue b q st
        = (.err e, st.log (.channel c st.calls.length (some e)))) ∨
    (∃ c e, st.sendChannels q = none ∧ getOrCreateChannelForQueue b q st
        = (.err ("No queue declared for the service \x27" ++ q ++ "\x27"),
            (st.log (.channel c st.calls.length none)).log
              (.queueInspect st.calls.length q (some e)))) ∨
    (∃ c, st.sendChannels q = none ∧ getOrCreateChannelForQueue b q st
        = (.ok st.calls.length,
            ((st.log (.channel c st.calls.length none)).log
              (.queueInspect st.calls.length q none)).setSendChannel q st.calls.length)) := by
  cases h : st.sendChannels q with
  | some ch => exact Or.inl ⟨ch, rfl, getOrCreate_hit b q st ch h⟩
  | none =>
    cases hc : st.conn with
    | none => exact Or.inr (Or.inl ⟨rfl, getOrCreate_nil b q st h hc⟩)
    | some c =>
      cases hb : b.Channel st.calls c with
      | some e =>
        exact Or.inr (Or.inr (Or.inl ⟨c, e, rfl, getOrCreate_channel_err b q st c e h hc hb⟩))
      | none =>
        cases hi : b.QueueInspect (st.calls ++ [.channel c st.calls.length none])
            st.calls.length q with
        | some e =>
          exact Or.inr (Or.inr (Or.inr (Or.inl
            ⟨c, e, rfl, getOrCreate_missing b q st c e h hc hb hi⟩)))
        | none =>
          exact Or.inr (Or.inr (Or.inr (Or.inr ⟨c, rfl, getOrCreate_insert b q st c h hc hb hi⟩)))

/-- An entry of the cache survives `getOrCreateChannelForQueue`, whatever its argument. -/
theorem getOrCreate_keeps (b : Broker) (q k : String) (st : State) (ch : Chan)
    (h : st.sendChannels k = some ch) :
    (getOrCreateChannelForQueue b q st).2.sendChannels k = some ch := by
  rcases getOrCreate_cases b q st with ⟨_, _, e⟩ | ⟨_, e⟩ | ⟨_, _, _, e⟩ | ⟨_, _, _, e⟩ | ⟨_, hq, e⟩
  all_goals rw [e]
  any_goals simpa [State.log] using h
  simp only [State.setSendChannel, State.log]
  split
  · next hk => subst hk; rw [hq] at h; cases h
  · exact h

/-- `publishMessage` does not touch the cache. -/
theorem publishMessage_sendChannels (b : Broker) (ch : Chan) (m : Bytes) (q : String)
    (st : State) : (publishMessage b ch m q st).2.sendChannels = st.sendChannels := by
  simp [publishMessage, amqp.Channel.Publish, State.log]

/-- `sendMessageToQueue` leaves the cache as `getOrCreateChannelForQueue` made it. -/
theorem send_sendChannels (b : Broker) (m : Bytes) (q : String) (st : State) :
    (sendMessageToQueue b m q st).2.sendChannels
      = (getOrCreateChannelForQueue b q st).2.sendChannels := by
  unfold sendMessageToQueue
  split <;> rename_i h <;> simp [h, publishMessage_sendChannels]

/-- An entry of the cache survives any one call. -/
theorem opRun_keeps (b : Broker) (op : Op) (k : String) (st : State) (ch : Chan)
    (h : st.sendChannels k = some ch) : (op.run b st).2.sendChannels k = some ch := by
  cases op with
  | getOrCreateChannelForQueue q =>
    have := getOrCreate_keeps b q k st ch h
    simp only [Op.run]
    split <;> rename_i e <;> simpa [e] using this
  | sendMessageToQueue m q =>
    have := getOrCreate_keeps b q k st ch h
    rw [← send_sendChannels b m q st] at this
    simp only [Op.run]
    split <;> rename_i e <;> simpa [e] using this

/-- An entry of the cache survives any sequence of calls. -/
theorem runOps_keeps (b : Broker) (ops : List Op) (k : String) (st : State) (ch : Chan)
    (h : st.sendChannels k = some ch) : (runOps b ops st).sendChannels k = some ch := by
  induction ops generalizing st with
  | nil => exact h
  | cons op ops ih =>
    have := opRun_keeps b op k st ch h
    simp only [runOps]
    split <;> rename_i e <;> rw [e] at this
    · exact this
    · exact ih _ this

/-- After a successful `getOrCreateChannelForQueue`, the channel returned is the
one the cache holds for the name. -/
theorem getOrCreate_ok_cached (b : Broker) (q : String) (st st1 : State) (c : Chan)
    (h : getOrCreateChannelForQueue b q st = (.ok c, st1)) : st1.sendChannels q = some c := by
  rcases getOrCreate_cases b q st with ⟨_, hq, e⟩ | ⟨_, e⟩ | ⟨_, _, _, e⟩ | ⟨_, _, _, e⟩ | ⟨_, hq, e⟩
  all_goals rw [e] at h
  all_goals simp only [Prod.mk.injEq, reduceCtorEq, false_and, Res.ok.injEq] at h
  · obtain ⟨rfl, rfl⟩ := h; exact hq
  · obtain ⟨rfl, rfl⟩ := h; simp [State.setSendChannel]

/-- C1. Once `getOrCreateChannelForQueue(q)` has succeeded with channel `c`, a later
call for `q`, after any further calls of `getOrCreateChannelForQueue` and
`sendMessageToQueue` and whatever the broker answers meanwhile, returns `c`
with a nil error and leaves the whole state as it found it: no broker channel is
opened (the call history is unchanged) and the `sendChannels` cache is unchanged. -/
theorem C1_repeated_call_returns_cached_channel (b b1 b2 : Broker) (q : String)
    (st st1 : State) (c : Chan)
    (h : getOrCreateChannelForQueue b q st = (.ok c, st1)) (ops : List Op) :
    getOrCreateChannelForQueue b2 q (runOps b1 ops st1) = (.ok c, runOps b1 ops st1) ∧
    (getOrCreateChannelForQueue b2 q (runOps b1 ops st1)).2.calls = (runOps b1 ops st1).calls ∧
    (getOrCreateChannelForQueue b2 q (runOps b1 ops st1)).2.sendChannels
      = (runOps b1 ops st1).sendChannels := by
  have hit := getOrCreate_hit b2 q _ c
    (runOps_keeps b1 ops q st1 c (getOrCreate_ok_cached b q st st1 c h))
  exact ⟨hit, by rw [hit], by rw [hit]⟩

/-- What it means, on the broker's answers, that the channel opens and the
existence probe on it fails. -/
theorem probe_fails (b : Broker) (q : String) (st st1 : State) (c : ConnId) (ch : Chan)
    (hch : amqp.Connection.Channel b c st = (.ok ch, st1))
    (hins : (queueExists b ch q st1).1 = false) :
    ch = st.calls.length ∧ b.Channel st.calls c = none ∧
    ∃ e, b.QueueInspect (st.calls ++ [.channel c st.calls.length none]) st.calls.length q
      = some e := by
  unfold amqp.Connection.Channel at hch
  cases hb : b.Channel st.calls c with
  | some e => simp [hb] at hch
  | none =>
    simp only [hb, Prod.mk.injEq, Except.ok.injEq] at hch
    obtain ⟨rfl, rfl⟩ := hch
    refine ⟨rfl, rfl, ?_⟩
    cases hi : b.QueueInspect (st.calls ++ [.channel c st.calls.length none])
        st.calls.length q with
    | some e => exact ⟨e, rfl⟩
    | none => simp [queueExists, amqp.Channel.QueueInspect, State.log, hi] at hins

/-- The calls made since the length the history had are the calls appended. -/
theorem since_append (st st1 : State) (new : List Event) (h : st1.calls = st.calls ++ new) :
    st1.since st.calls.length = new := by
  simp [State.since, h]

/-- `getOrCreateChannelForQueue` only appends to the history, and never a `Publish`
nor a `Close`. -/
theorem getOrCreate_calls (b : Broker) (q : String) (st : State) :
    ∃ new, (getOrCreateChannelForQueue b q st).2.calls = st.calls ++ new ∧
      new.filter Event.isPublish = [] ∧ new.filter Event.isClose = [] := by
  rcases getOrCreate_cases b q st with ⟨_, _, e⟩ | ⟨_, e⟩ | ⟨c, x, _, e⟩ | ⟨c, x, _, e⟩ | ⟨c, _, e⟩
  · exact ⟨[], by simp [e], rfl, rfl⟩
  · exact ⟨[], by simp [e], rfl, rfl⟩
  · exact ⟨[.channel c st.calls.length (some x)], by rw [e]; simp only [State.log], rfl, rfl⟩
  · exact ⟨[.channel c st.calls.length none, .queueInspect st.calls.length q (some x)],
      by rw [e]; simp [State.log], rfl, rfl⟩
  · exact ⟨[.channel c st.calls.length none, .queueInspect st.calls.length q none],
      by rw [e]; simp [State.log, State.setSendChannel], rfl, rfl⟩

/-- The resources held after more calls. -/
theorem held_append (calls new : List Event) :
    held (calls ++ new) = new.foldl Resources.step (held calls) := by
  simp [held, List.foldl_append]

/-- The channels opened by a run of calls, by its first call and the rest. -/
theorem opened_cons (e : Event) (l : List Event) : opened (e :: l) = opened [e] ++ opened l := by
  cases e with
  | channel c ch err => cases err <;> rfl
  | _ => rfl

/-- A channel that is open after one more call was open before it or is the one
the call opened. -/
theorem step_chans (r : Resources) (e : Event) (p : Chan × ConnId)
    (h : p ∈ (r.step e).chans) : p ∈ r.chans ∨ p.1 ∈ opened [e] := by
  rcases e with ⟨uri, c, _ | x⟩ | ⟨c, ch, _ | x⟩ | ⟨ch, nm, d, a, ex, nw, args, _ | x⟩ |
    ⟨ch, nm, _ | x⟩ | ⟨ch, qn, cn, aa, ex, nl, nw, args, _ | x⟩ | ⟨ch, ex, key, m, i, msg, err⟩ |
    ⟨u⟩ | ⟨ch⟩ | ⟨c⟩ | ⟨l⟩
  all_goals
    simp only [Resources.step, List.mem_append, List.mem_filter, List.mem_singleton] at h
  all_goals
    first
    | exact Or.inl h
    | exact Or.inl h.1
    | (rcases h with h | h
       · exact Or.inl h
       · subst h; exact Or.inr (by simp [opened]))

/-- A channel that is open after more calls was open before them or was opened
by one of them. -/
theorem held_chans (new calls : List Event) (p : Chan × ConnId)
    (h : p ∈ (held (calls ++ new)).chans) : p ∈ (held calls).chans ∨ p.1 ∈ opened new := by
  induction new generalizing calls with
  | nil => exact Or.inl (by simpa using h)
  | cons e new ih =>
    have hsplit : calls ++ e :: new = (calls ++ [e]) ++ new := by simp
    rw [hsplit] at h
    have hcons : opened (e :: new) = opened [e] ++ opened new := opened_cons e new
    rcases ih (calls ++ [e]) h with h1 | h1
    · rw [held_append] at h1
      rcases step_chans (held calls) e p (by simpa using h1) with h2 | h2
      · exact Or.inl h2
      · exact Or.inr (by rw [hcons]; exact List.mem_append_left _ h2)
    · exact Or.inr (by rw [hcons]; exact List.mem_append_right _ h1)

/-- The numbering of the open channels survives calls that open only channels
numbered within the new length of the history. -/
theorem numbered_append (calls new : List Event) (h : numbered calls)
    (hnew : ∀ ch ∈ opened new, ch < calls.length + new.length) : numbered (calls ++ new) := by
  intro p hp
  rw [List.length_append]
  rcases held_chans new calls p hp with h1 | h1
  · exact Nat.lt_of_lt_of_le (h p h1) (Nat.le_add_right _ _)
  · exact hnew _ h1

/-- `getOrCreateChannelForQueue` keeps the numbering of the open channels. -/
theorem getOrCreate_numbered (b : Broker) (q : String) (st : State) (h : numbered st.calls) :
    numbered (getOrCreateChannelForQueue b q st).2.calls := by
  rcases getOrCreate_cases b q st with ⟨_, _, e⟩ | ⟨_, e⟩ | ⟨c, x, _, e⟩ | ⟨c, x, _, e⟩ | ⟨c, _, e⟩
  · rw [e]; exact h
  · rw [e]; exact h
  · rw [e]
    exact numbered_append st.calls [.channel c st.calls.length (some x)] h (by simp [opened])
  · rw [e]
    have hc : ((st.log (.channel c st.calls.length none)).log
        (.queueInspect st.calls.length q (some x))).calls
        = st.calls ++ [.channel c st.calls.length none,
            .queueInspect st.calls.length q (some x)] := by simp [State.log]
    rw [hc]
    exact numbered_append st.calls _ h (by simp [opened])
  · rw [e]
    have hc : (((st.log (.channel c st.calls.length none)).log
        (.queueInspect st.calls.length q none)).setSendChannel q st.calls.length).calls
        = st.calls ++ [.channel c st.calls.length none,
            .queueInspect st.calls.length q none] := by
      simp [State.log, State.setSendChannel]
    rw [hc]
    exact numbered_append st.calls _ h (by simp [opened])

/-- `sendMessageToQueue` keeps the numbering of the open channels. -/
theorem send_numbered (b : Broker) (m : Bytes) (q : String) (st : State)
    (h : numbered st.calls) : numbered (sendMessageToQueue b m q st).2.calls := by
  have hg := getOrCreate_numbered b q st h
  unfold sendMessageToQueue
  split <;> rename_i e <;> rw [e] at hg
  · exact hg
  · exact hg
  · next ch st1 =>
    have hc : (publishMessage b ch m q st1).2.calls = st1.calls ++
        [.publish ch "" q false false
          { ContentType := "application/octet-stream", Body := m,
            DeliveryMode := amqp.Persistent }
          (b.Publish st1.calls ch "" q false false
            { ContentType := "application/octet-stream", Body := m,
              DeliveryMode := amqp.Persistent })] := by
      simp [publishMessage, amqp.Channel.Publish, State.log]
    rw [hc]
    exact numbered_append st1.calls _ hg (by simp [opened])

/-- `Close` keeps the numbering of the open channels. -/
theorem Close_numbered (st : State) (h : numbered st.calls) : numbered (Close st).calls := by
  have hc : ∃ new, (Close st).calls = st.calls ++ new ∧ opened new = [] := by
    cases hr : st.responseChannel with
    | none =>
      cases hn : st.conn with
      | none => exact ⟨[], by simp [Close, hr, hn], rfl⟩
      | some c => exact ⟨[.connClose c], by simp [Close, hr, hn, State.log], rfl⟩
    | some ch =>
      cases hn : st.conn with
      | none => exact ⟨[.channelClose ch], by simp [Close, hr, hn, State.log], rfl⟩
      | some c =>
        exact ⟨[.channelClose ch, .connClose c], by simp [Close, hr, hn, State.log], rfl⟩
  obtain ⟨new, hnew, hop⟩ := hc
  rw [hnew]
  exact numbered_append st.calls new h (by simp [hop])

/-- C2. When `q` is not in the cache and the existence probe on the freshly
opened channel fails, `sendMessageToQueue(msg, q)` returns an error, makes no
`Publish` call, and leaves the `sendChannels` cache as it was, so without an
entry for `q`. -/
theorem C2_unknown_destination_fails_and_is_not_cached (b : Broker) (msg : Bytes) (q : String)
    (st st1 : State) (c : ConnId) (ch : Chan)
    (hq : st.sendChannels q = none) (hc : st.conn = some c)
    (hch : amqp.Connection.Channel b c st = (.ok ch, st1))
    (hins : (queueExists b ch q st1).1 = false) :
    (sendMessageToQueue b msg q st).1
      = .err ("No queue declared for the service \x27" ++ q ++ "\x27") ∧
    ((sendMessageToQueue b msg q st).2.since st.calls.length).filter Event.isPublish = [] ∧
    (sendMessageToQueue b msg q st).2.sendChannels = st.sendChannels ∧
    (sendMessageToQueue b msg q st).2.sendChannels q = none := by
  obtain ⟨rfl, hb, e, hi⟩ := probe_fails b q st st1 c ch hch hins
  have hg := getOrCreate_missing b q st c e hq hc hb hi
  have hs : sendMessageToQueue b msg q st
      = (.err ("No queue declared for the service \x27" ++ q ++ "\x27"),
          (st.log (.channel c st.calls.length none)).log
            (.queueInspect st.calls.length q (some e))) := by
    simp [sendMessageToQueue, hg]
  rw [hs]
  refine ⟨rfl, ?_, rfl, hq⟩
  rw [since_append st _ [.channel c st.calls.length none,
    .queueInspect st.calls.length q (some e)] (by simp [State.log])]
  rfl

/-- C2, on a connected instance and a broker without the queue `postman.resp.missing`. -/
theorem C2_witness :
    (connected [] uuidA).sendChannels "postman.resp.missing" = none ∧
    (connected [] uuidA).conn = some 0 ∧
    (queueExists (brokerWith [] uuidA) 10 "postman.resp.missing"
      (amqp.Connection.Channel (brokerWith [] uuidA) 0 (connected [] uuidA)).2).1 = false ∧
    (sendMessageToQueue (brokerWith [] uuidA) [1, 2, 3] "postman.resp.missing"
        (connected [] uuidA)).1
      = .err "No queue declared for the service \x27postman.resp.missing\x27" ∧
    (sendMessageToQueue (brokerWith [] uuidA) [1, 2, 3] "postman.resp.missing"
        (connected [] uuidA)).2.sendChannels "postman.resp.missing" = none :=
  have h := C2_unknown_destination_fails_and_is_not_cached (brokerWith [] uuidA) [1, 2, 3]
    "postman.resp.missing" (connected [] uuidA)
    (amqp.Connection.Channel (brokerWith [] uuidA) 0 (connected [] uuidA)).2 0 10
    (by decide) (by decide) (Prod.ext rfl rfl) (by decide)
  ⟨by decide, by decide, by decide, h.1, h.2.2.2⟩

/-- C1, on a connected instance and a broker that has the queue `postman.req.other`. -/
theorem C1_witness :
    (getOrCreateChannelForQueue (brokerWith ["postman.req.other"] uuidA) "postman.req.other"
      (connected ["postman.req.other"] uuidA)).1 = .ok 10 ∧
    (getOrCreateChannelForQueue (brokerWith [] uuidB) "postman.req.other"
      (runOps (brokerWith ["postman.req.other"] uuidA)
        [.sendMessageToQueue [7] "postman.req.other", .getOrCreateChannelForQueue "postman.req.x"]
        (getOrCreateChannelForQueue (brokerWith ["postman.req.other"] uuidA)
          "postman.req.other" (connected ["postman.req.other"] uuidA)).2)).1 = .ok 10 :=
  ⟨by decide,
    congrArg Prod.fst (C1_repeated_call_returns_cached_channel
      (brokerWith ["postman.req.other"] uuidA) (brokerWith ["postman.req.other"] uuidA)
      (brokerWith [] uuidB) "postman.req.other" (connected ["postman.req.other"] uuidA)
      (getOrCreateChannelForQueue (brokerWith ["postman.req.other"] uuidA)
          "postman.req.other" (connected ["postman.req.other"] uuidA)).2 10
      (Prod.ext (by decide) rfl)
      [.sendMessageToQueue [7] "postman.req.other",
        .getOrCreateChannelForQueue "postman.req.x"]).1⟩

/-- C6. `sendMessageToQueue(bytes, q)` makes exactly one `Publish` call when
`getOrCreateChannelForQueue(q)` yields a channel `c`: on `c`, with exchange `""`,
routing key `q`, mandatory and immediate false, content type
`application/octet-stream`, delivery mode `amqp.Persistent` and body `bytes`; and it
returns the error (or nil) that this call answered.  When no channel is obtained
it returns that error and makes no `Publish` call. -/
theorem C6_send_publishes_once_and_returns_its_error (b : Broker) (msg : Bytes) (q : String)
    (st : State) :
    (∀ c st1, getOrCreateChannelForQueue b q st = (.ok c, st1) →
      (sendMessageToQueue b msg q st).1
        = Res.ofError (b.Publish st1.calls c "" q false false
            { ContentType := "application/octet-stream", Body := msg,
              DeliveryMode := amqp.Persistent }) ∧
      ((sendMessageToQueue b msg q st).2.since st.calls.length).filter Event.isPublish
        = [.publish c "" q false false
            { ContentType := "application/octet-stream", Body := msg,
              DeliveryMode := amqp.Persistent }
            (b.Publish st1.calls c "" q false false
              { ContentType := "application/octet-stream", Body := msg,
                DeliveryMode := amqp.Persistent })]) ∧
    (∀ e st1, getOrCreateChannelForQueue b q st = (.err e, st1) →
      (sendMessageToQueue b msg q st).1 = .err e ∧
      ((sendMessageToQueue b msg q st).2.since st.calls.length).filter Event.isPublish = []) := by
  obtain ⟨new, hnew, hpub, -⟩ := getOrCreate_calls b q st
  constructor
  · intro c st1 h
    rw [h] at hnew
    simp only at hnew
    have hs : sendMessageToQueue b msg q st = publishMessage b c msg q st1 := by
      simp [sendMessageToQueue, h]
    rw [hs]
    refine ⟨by simp [publishMessage, amqp.Channel.Publish], ?_⟩
    rw [since_append st _ (new ++ [.publish c "" q false false
      { ContentType := "application/octet-stream", Body := msg,
        DeliveryMode := amqp.Persistent }
      (b.Publish st1.calls c "" q false false
        { ContentType := "application/octet-stream", Body := msg,
          DeliveryMode := amqp.Persistent })])
      (by simp [publishMessage, amqp.Channel.Publish, State.log, hnew])]
    simp [List.filter_append, hpub, Event.isPublish]
  · intro e st1 h
    rw [h] at hnew
    simp only at hnew
    have hs : sendMessageToQueue b msg q st = (.err e, st1) := by
      simp [sendMessageToQueue, h]
    rw [hs]
    exact ⟨rfl, by rw [since_append st st1 new hnew]; exact hpub⟩

/-- C6, on a connected instance and a broker that has the queue `postman.req.other`. -/
theorem C6_witness :
    (getOrCreateChannelForQueue (brokerWith ["postman.req.other"] uuidA) "postman.req.other"
      (connected ["postman.req.other"] uuidA)).1 = .ok 10 ∧
    (sendMessageToQueue (brokerWith ["postman.req.other"] uuidA) [104, 105] "postman.req.other"
      (connected ["postman.req.other"] uuidA)).1 = .ok () ∧
    ((sendMessageToQueue (brokerWith ["postman.req.other"] uuidA) [104, 105]
        "postman.req.other" (connected ["postman.req.other"] uuidA)).2.since
        (connected ["postman.req.other"] uuidA).calls.length).filter Event.isPublish
      = [.publish 10 "" "postman.req.other" false false
          { ContentType := "application/octet-stream", Body := [104, 105], DeliveryMode := 2 }
          none] :=
  ⟨rfl,
    ((C6_send_publishes_once_and_returns_its_error (brokerWith ["postman.req.other"] uuidA)
      [104, 105] "postman.req.other" (connected ["postman.req.other"] uuidA)).1 10
      (getOrCreateChannelForQueue (brokerWith ["postman.req.other"] uuidA) "postman.req.other"
        (connected ["postman.req.other"] uuidA)).2 (Prod.ext rfl rfl)).1,
    ((C6_send_publishes_once_and_returns_its_error (brokerWith ["postman.req.other"] uuidA)
      [104, 105] "postman.req.other" (connected ["postman.req.other"] uuidA)).1 10
      (getOrCreateChannelForQueue (brokerWith ["postman.req.other"] uuidA) "postman.req.other"
        (connected ["postman.req.other"] uuidA)).2 (Prod.ext rfl rfl)).2⟩

/-! ## The steps of `Connect` -/

/-- The two ways through `declareResponseChannelAndQueue` when `conn` is set. -/
theorem declareResponse_cases (b : Broker) (st : State) (c : ConnId) (hc : st.conn = some c) :
    (∃ e, declareResponseChannelAndQueue b st
      = (.err e, { st with
          responseChannel := none
          calls := st.calls ++ [.channel c st.calls.length (some e)] })) ∨
    (∃ u r, declareResponseChannelAndQueue b st
      = (Res.ofError r, { st with
          responseChannel := some st.calls.length
          responseQueueName := "postman.resp." ++ u.String
          calls := st.calls ++ [.channel c st.calls.length none, .newV4 u,
            .queueDeclare st.calls.length ("postman.resp." ++ u.String)
              true false true false none r] })) := by
  cases hb : b.Channel st.calls c with
  | some e =>
    exact Or.inl ⟨e, by
      simp [declareResponseChannelAndQueue, hc, amqp.Connection.Channel, hb, State.log]⟩
  | none =>
    refine Or.inr ⟨b.NewV4 (st.calls ++ [.channel c st.calls.length none]),
      b.QueueDeclare (st.calls ++ [.channel c st.calls.length none,
          .newV4 (b.NewV4 (st.calls ++ [.channel c st.calls.length none]))])
        st.calls.length
        ("postman.resp." ++ (b.NewV4 (st.calls ++ [.channel c st.calls.length none])).String)
        true false true false none, ?_⟩
    simp [declareResponseChannelAndQueue, hc, amqp.Connection.Channel, hb, State.log,
      getResponseQueueName, uuid.NewV4, amqp.Channel.QueueDeclare]

/-- The two ways through `ensureRequestQueue` when `conn` is set. -/
theorem ensureRequestQueue_cases (b : Broker) (st : State) (c : ConnId)
    (hc : st.conn = some c) :
    (∃ e, ensureRequestQueue b st
      = (.err e, { st with calls := st.calls ++ [.channel c st.calls.length (some e)] })) ∨
    (∃ r, ensureRequestQueue b st
      = (Res.ofError r, { st with
          calls := st.calls ++ [.channel c st.calls.length none,
            .queueDeclare st.calls.length ("postman.req." ++ st.serviceName)
              true true false false none r] })) := by
  cases hb : b.Channel st.calls c with
  | some e =>
    exact Or.inl ⟨e, by simp [ensureRequestQueue, hc, amqp.Connection.Channel, hb, State.log]⟩
  | none =>
    refine Or.inr ⟨b.QueueDeclare (st.calls ++ [.channel c st.calls.length none])
        st.calls.length ("postman.req." ++ st.serviceName) true true false false none, ?_⟩
    simp [ensureRequestQueue, hc, amqp.Connection.Channel, hb, State.log,
      getRequestQueueName, amqp.Channel.QueueDeclare]

/-- The two ways through `consumeReponseMessages` when `responseChannel` is set. -/
theorem consumeReponseMessages_cases (b : Broker) (st : State) (ch : Chan)
    (hch : st.responseChannel = some ch) :
    (∃ e, consumeReponseMessages b st
      = (.err e, { st with
          calls := st.calls ++ [.consume ch st.responseQueueName "" true true false false
            none (some e)] })) ∨
    consumeReponseMessages b st
      = (.ok (), { st with
          calls := st.calls ++ [.consume ch st.responseQueueName "" true true false false
            none none, .go .response] }) := by
  cases hb : b.Consume st.calls ch st.responseQueueName "" true true false false none with
  | some e =>
    exact Or.inl ⟨e, by simp [consumeReponseMessages, hch, amqp.Channel.Consume, hb, State.log]⟩
  | none =>
    exact Or.inr (by simp [consumeReponseMessages, hch, amqp.Channel.Consume, hb, State.log])

/-- The two ways through `consumeRequestMessages` when `responseChannel` is set. -/
theorem consumeRequestMessages_cases (b : Broker) (st : State) (ch : Chan)
    (hch : st.responseChannel = some ch) :
    (∃ e, consumeRequestMessages b st
      = (.err e, { st with
          calls := st.calls ++ [.consume ch ("postman.req." ++ st.serviceName) "" false false
            false false none (some e)] })) ∨
    consumeRequestMessages b st
      = (.ok (), { st with
          calls := st.calls ++ [.consume ch ("postman.req." ++ st.serviceName) "" false false
            false false none none, .go .request] }) := by
  cases hb : b.Consume st.calls ch ("postman.req." ++ st.serviceName) "" false false false
      false none with
  | some e =>
    exact Or.inl ⟨e, by
      simp [consumeRequestMessages, hch, amqp.Channel.Consume, hb, State.log,
        getRequestQueueName]⟩
  | none =>
    exact Or.inr (by
      simp [consumeRequestMessages, hch, amqp.Channel.Consume, hb, State.log,
        getRequestQueueName])

/-- Inversion of `declareResponseChannelAndQueue`. -/
theorem declareResponse_inv (b : Broker) (st st1 : State) (R : Res Unit) (c : ConnId)
    (h : declareResponseChannelAndQueue b st = (R, st1)) (hc : st.conn = some c) :
    (∃ e, R = .err e ∧ st1 = { st with
        responseChannel := none
        calls := st.calls ++ [.channel c st.calls.length (some e)] }) ∨
    (∃ u r, R = Res.ofError r ∧ st1 = { st with
        responseChannel := some st.calls.length
        responseQueueName := "postman.resp." ++ u.String
        calls := st.calls ++ [.channel c st.calls.length none, .newV4 u,
          .queueDeclare st.calls.length ("postman.resp." ++ u.String)
            true false true false none r] }) := by
  rcases declareResponse_cases b st c hc with ⟨e, h'⟩ | ⟨u, r, h'⟩
  · rw [h'] at h; cases h; exact Or.inl ⟨e, rfl, rfl⟩
  · rw [h'] at h; cases h; exact Or.inr ⟨u, r, rfl, rfl⟩

/-- Inversion of `ensureRequestQueue`. -/
theorem ensureRequestQueue_inv (b : Broker) (st st1 : State) (R : Res Unit) (c : ConnId)
    (h : ensureRequestQueue b st = (R, st1)) (hc : st.conn = some c) :
    (∃ e, R = .err e ∧
      st1 = { st with calls := st.calls ++ [.channel c st.calls.length (some e)] }) ∨
    (∃ r, R = Res.ofError r ∧ st1 = { st with
        calls := st.calls ++ [.channel c st.calls.length none,
          .queueDeclare st.calls.length ("postman.req." ++ st.serviceName)
            true true false false none r] }) := by
  rcases ensureRequestQueue_cases b st c hc with ⟨e, h'⟩ | ⟨r, h'⟩
  · rw [h'] at h; cases h; exact Or.inl ⟨e, rfl, rfl⟩
  · rw [h'] at h; cases h; exact Or.inr ⟨r, rfl, rfl⟩

/-- Inversion of `consumeReponseMessages`. -/
theorem consumeReponseMessages_inv (b : Broker) (st st1 : State) (R : Res Unit) (ch : Chan)
    (h : consumeReponseMessages b st = (R, st1)) (hch : st.responseChannel = some ch) :
    (∃ e, R = .err e ∧ st1 = { st with
        calls := st.calls ++ [.consume ch st.responseQueueName "" true true false false
          none (some e)] }) ∨
    (R = .ok () ∧ st1 = { st with
        calls := st.calls ++ [.consume ch st.responseQueueName "" true true false false
          none none, .go .response] }) := by
  rcases consumeReponseMessages_cases b st ch hch with ⟨e, h'⟩ | h'
  · rw [h'] at h; cases h; exact Or.inl ⟨e, rfl, rfl⟩
  · rw [h'] at h; cases h; exact Or.inr ⟨rfl, rfl⟩

/-- Inversion of `consumeRequestMessages`. -/
theorem consumeRequestMessages_inv (b : Broker) (st st1 : State) (R : Res Unit) (ch : Chan)
    (h : consumeRequestMessages b st = (R, st1)) (hch : st.responseChannel = some ch) :
    (∃ e, R = .err e ∧ st1 = { st with
        calls := st.calls ++ [.consume ch ("postman.req." ++ st.serviceName) "" false false
          false false none (some e)] }) ∨
    (R = .ok () ∧ st1 = { st with
        calls := st.calls ++ [.consume ch ("postman.req." ++ st.serviceName) "" false false
          false false none none, .go .request] }) := by
  rcases consumeRequestMessages_cases b st ch hch with ⟨e, h'⟩ | h'
  · rw [h'] at h; cases h; exact Or.inl ⟨e, rfl, rfl⟩
  · rw [h'] at h; cases h; exact Or.inr ⟨rfl, rfl⟩

/-- Every way through `Connect`: the result, and the calls made, for a failure at
each of its seven library calls and for success. -/
theorem Connect_cases (b : Broker) (uri s : String) (st : State) :
    (Connect b uri s st).2.serviceName = s ∧
    (Connect b uri s st).2.sendChannels = st.sendChannels ∧
    ((∃ e, (Connect b uri s st).1 = .err ("Unable to connect to the AMQP server: " ++ e) ∧
        (Connect b uri s st).2.calls = st.calls ++ [.dial uri st.calls.length (some e)]) ∨
    (∃ e, (Connect b uri s st).1 = .err ("Error creating the AMQP response channel: " ++ e) ∧
        (Connect b uri s st).2.calls = st.calls ++ [.dial uri st.calls.length none,
          .channel st.calls.length (st.calls.length + 1) (some e)]) ∨
    (∃ u e, (Connect b uri s st).1 = .err ("Error creating the AMQP response channel: " ++ e) ∧
        (Connect b uri s st).2.calls = st.calls ++ [.dial uri st.calls.length none,
          .channel st.calls.length (st.calls.length + 1) none, .newV4 u,
          .queueDeclare (st.calls.length + 1) ("postman.resp." ++ u.String)
            true false true false none (some e)]) ∨
    (∃ u e, (Connect b uri s st).1 = .err ("Error creating the AMQP request queue: " ++ e) ∧
        (Connect b uri s st).2.calls = st.calls ++ [.dial uri st.calls.length none,
          .channel st.calls.length (st.calls.length + 1) none, .newV4 u,
          .queueDeclare (st.calls.length + 1) ("postman.resp." ++ u.String)
            true false true false none none,
          .channel st.calls.length (st.calls.length + 4) (some e)]) ∨
    (∃ u e, (Connect b uri s st).1 = .err ("Error creating the AMQP request queue: " ++ e) ∧
        (Connect b uri s st).2.calls = st.calls ++ [.dial uri st.calls.length none,
          .channel st.calls.length (st.calls.length + 1) none, .newV4 u,
          .queueDeclare (st.calls.length + 1) ("postman.resp." ++ u.String)
            true false true false none none,
          .channel st.calls.length (st.calls.length + 4) none,
          .queueDeclare (st.calls.length + 4) ("postman.req." ++ s)
            true true false false none (some e)]) ∨
    (∃ u e, (Connect b uri s st).1 = .err ("Response queue consume error: " ++ e) ∧
        (Connect b uri s st).2.calls = st.calls ++ [.dial uri st.calls.length none,
          .channel st.calls.length (st.calls.length + 1) none, .newV4 u,
          .queueDeclare (st.calls.length + 1) ("postman.resp." ++ u.String)
            true false true false none none,
          .channel st.calls.length (st.calls.length + 4) none,
          .queueDeclare (st.calls.length + 4) ("postman.req." ++ s)
            true true false false none none,
          .consume (st.calls.length + 1) ("postman.resp." ++ u.String) ""
            true true false false none (some e)]) ∨
    (∃ u e, (Connect b uri s st).1 = .err ("Request queue consume error: " ++ e) ∧
        (Connect b uri s st).2.calls = st.calls ++ [.dial uri st.calls.length none,
          .channel st.calls.length (st.calls.length + 1) none, .newV4 u,
          .queueDeclare (st.calls.length + 1) ("postman.resp." ++ u.String)
            true false true false none none,
          .channel st.calls.length (st.calls.length + 4) none,
          .queueDeclare (st.calls.length + 4) ("postman.req." ++ s)
            true true false false none none,
          .consume (st.calls.length + 1) ("postman.resp." ++ u.String) ""
            true true false false none none,
          .go .response,
          .consume (st.calls.length + 1) ("postman.req." ++ s) ""
            false false false false none (some e)]) ∨
    (∃ u, (Connect b uri s st).1 = .ok () ∧
        (Connect b uri s st).2.responseQueueName = "postman.resp." ++ u.String ∧
        (Connect b uri s st).2.calls = st.calls ++ connectCalls uri s st.calls.length u)) := by
  unfold Connect
  simp only [amqp.Dial, State.log]
  cases hd : b.Dial st.calls uri with
  | some e => simp
  | none =>
    simp only
    split
    · next S1 h1 =>
      rcases declareResponse_inv b _ _ _ st.calls.length h1 rfl with ⟨e, h, -⟩ | ⟨u, r, h, -⟩
      · cases h
      · cases r <;> cases h
    · next e S1 h1 =>
      rcases declareResponse_inv b _ _ _ st.calls.length h1 rfl with
        ⟨x, h, rfl⟩ | ⟨u, r, h, rfl⟩
      · cases h
        refine ⟨rfl, rfl, Or.inr (Or.inl ⟨e, rfl, ?_⟩)⟩
        simp
      · cases r <;> cases h
        refine ⟨rfl, rfl, Or.inr (Or.inr (Or.inl ⟨u, e, rfl, ?_⟩))⟩
        simp
    · next S1 h1 =>
      rcases declareResponse_inv b _ _ _ st.calls.length h1 rfl with
        ⟨x, h, rfl⟩ | ⟨u, r, h, rfl⟩
      · cases h
      · cases r <;> cases h
        split
        · next S2 h2 =>
          rcases ensureRequestQueue_inv b _ _ _ st.calls.length h2 rfl with
            ⟨e, h, -⟩ | ⟨r, h, -⟩
          · cases h
          · cases r <;> cases h
        · next e S2 h2 =>
          rcases ensureRequestQueue_inv b _ _ _ st.calls.length h2 rfl with
            ⟨x, h, rfl⟩ | ⟨r, h, rfl⟩
          · cases h
            refine ⟨rfl, rfl, Or.inr (Or.inr (Or.inr (Or.inl ⟨u, e, rfl, ?_⟩)))⟩
            simp
          · cases r <;> cases h
            refine ⟨rfl, rfl, Or.inr (Or.inr (Or.inr (Or.inr (Or.inl ⟨u, e, rfl, ?_⟩))))⟩
            simp
        · next S2 h2 =>
          rcases ensureRequestQueue_inv b _ _ _ st.calls.length h2 rfl with
            ⟨x, h, rfl⟩ | ⟨r, h, rfl⟩
          · cases h
          · cases r <;> cases h
            split
            · next S3 h3 =>
              rcases consumeReponseMessages_inv b _ _ _ (st.calls.length + 1) h3 (by simp)
                with ⟨e, h, -⟩ | ⟨h, -⟩ <;> cases h
            · next e S3 h3 =>
              rcases consumeReponseMessages_inv b _ _ _ (st.calls.length + 1) h3 (by simp)
                with ⟨x, h, rfl⟩ | ⟨h, -⟩ <;> cases h
              refine ⟨rfl, rfl, Or.inr (Or.inr (Or.inr (Or.inr (Or.inr (Or.inl
                ⟨u, e, rfl, ?_⟩)))))⟩
              simp
            · next S3 h3 =>
              rcases consumeReponseMessages_inv b _ _ _ (st.calls.length + 1) h3 (by simp)
                with ⟨x, h, -⟩ | ⟨-, rfl⟩
              · cases h
              · split
                · next S4 h4 =>
                  rcases consumeRequestMessages_inv b _ _ _ (st.calls.length + 1) h4 (by simp)
                    with ⟨e, h, -⟩ | ⟨h, -⟩ <;> cases h
                · next e S4 h4 =>
                  rcases consumeRequestMessages_inv b _ _ _ (st.calls.length + 1) h4 (by simp)
                    with ⟨x, h, rfl⟩ | ⟨h, -⟩ <;> cases h
                  refine ⟨rfl, rfl, Or.inr (Or.inr (Or.inr (Or.inr (Or.inr (Or.inr (Or.inl
                    ⟨u, e, rfl, ?_⟩))))))⟩
                  simp
                · next S4 h4 =>
                  rcases consumeRequestMessages_inv b _ _ _ (st.calls.length + 1) h4 (by simp)
                    with ⟨x, h, -⟩ | ⟨-, rfl⟩
                  · cases h
                  · refine ⟨rfl, rfl, Or.inr (Or.inr (Or.inr (Or.inr (Or.inr (Or.inr (Or.inr
                      ⟨u, rfl, rfl, ?_⟩))))))⟩
                    simp [connectCalls]

/-! ## The textual form of a UUID determines it -/

/-- Reading back a hexadecimal digit. -/
theorem hexValue_hexDigit : ∀ n : Fin 16, hexValue (hexDigit n.val) = n.val := by
  decide

/-- A byte is determined by its two hexadecimal digits. -/
theorem hexDigits_inj (x y : UInt8) (hhi : hexDigit (x.toNat / 16) = hexDigit (y.toNat / 16))
    (hlo : hexDigit (x.toNat % 16) = hexDigit (y.toNat % 16)) : x = y := by
  have hx := UInt8.toNat_lt x
  have hy := UInt8.toNat_lt y
  have h1 := hexValue_hexDigit ⟨x.toNat / 16, by omega⟩
  have h2 := hexValue_hexDigit ⟨y.toNat / 16, by omega⟩
  have h3 := hexValue_hexDigit ⟨x.toNat % 16, by omega⟩
  have h4 := hexValue_hexDigit ⟨y.toNat % 16, by omega⟩
  simp only at h1 h2 h3 h4
  rw [hhi, h2] at h1
  rw [hlo, h4] at h3
  apply UInt8.ext
  omega

/-- The hexadecimal encoding has two characters per byte. -/
theorem hexEncode_length (l : List UInt8) : (hexEncode l).length = 2 * l.length := by
  induction l with
  | nil => rfl
  | cons x xs ih => simp [hexEncode, ih]; omega

/-- The hexadecimal encoding is injective. -/
theorem hexEncode_inj (l m : List UInt8) (h : hexEncode l = hexEncode m) : l = m := by
  induction l generalizing m with
  | nil =>
    cases m with
    | nil => rfl
    | cons y ys => simp [hexEncode] at h
  | cons x xs ih =>
    cases m with
    | nil => simp [hexEncode] at h
    | cons y ys =>
      simp only [hexEncode, List.cons.injEq] at h
      obtain ⟨h1, h2, h3⟩ := h
      rw [hexDigits_inj x y h1 h2, ih ys h3]

/-- Two UUIDs with the same textual form are equal. -/
theorem UUID.String_inj (u v : UUID) (h : u.String = v.String) : u = v := by
  obtain ⟨a, ha⟩ := u
  obtain ⟨c, hc⟩ := v
  replace h := congrArg String.data h
  simp only [UUID.String] at h
  have len : ∀ (k : Nat) (l m : List UInt8), l.length = m.length →
      (hexEncode (l.take k)).length = (hexEncode (m.take k)).length := by
    intro k l m e
    simp [hexEncode_length, e]
  obtain ⟨e1, h⟩ := List.append_inj h (len 4 a c (by omega))
  simp only [List.cons.injEq, true_and] at h
  obtain ⟨e2, h⟩ := List.append_inj h (len 2 _ _ (by simp; omega))
  simp only [List.cons.injEq, true_and] at h
  obtain ⟨e3, h⟩ := List.append_inj h (len 2 _ _ (by simp; omega))
  simp only [List.cons.injEq, true_and] at h
  obtain ⟨e4, h⟩ := List.append_inj h (len 2 _ _ (by simp; omega))
  simp only [List.cons.injEq, true_and] at h
  have f1 := hexEncode_inj _ _ e1
  have f2 := hexEncode_inj _ _ e2
  have f3 := hexEncode_inj _ _ e3
  have f4 := hexEncode_inj _ _ e4
  have f5 := hexEncode_inj _ _ h
  have key : ∀ l : List UInt8, l = l.take 4 ++ ((l.drop 4).take 2 ++ ((l.drop 6).take 2 ++
      ((l.drop 8).take 2 ++ l.drop 10))) := by
    intro l
    have d1 : l.drop 10 = (l.drop 8).drop 2 := by simp
    have d2 : l.drop 8 = (l.drop 6).drop 2 := by simp
    have d3 : l.drop 6 = (l.drop 4).drop 2 := by simp
    rw [d1, List.take_append_drop, d2, List.take_append_drop, d3, List.take_append_drop,
      List.take_append_drop]
  have : a = c := by rw [key a, key c, f1, f2, f3, f4, f5]
  subst this
  rfl

/-- Distinct UUIDs give distinct response queue names. -/
theorem responseQueueName_inj (u v : UUID)
    (h : "postman.resp." ++ u.String = "postman.resp." ++ v.String) : u = v := by
  apply UUID.String_inj
  have := congrArg String.data h
  simp only [String.data_append, List.append_cancel_left_eq] at this
  exact String.ext this

/-! ## The queue topology -/

/-- Nothing has been called since the present length of the history. -/
theorem since_self (st : State) : st.since st.calls.length = [] := by
  simp [State.since]

/-- C3, as stated, fails: the response queue is declared with auto-delete false.
After a successful dial, `declareResponseChannelAndQueue` makes one `QueueDeclare`
call, with durable true, auto-delete false, exclusive true, no-wait false. -/
theorem C3_counterexample :
    (declareResponseChannelAndQueue (brokerWith [] uuidA)
      (dialled (brokerWith [] uuidA) "amqp://localhost" "svc")).1 = .ok () ∧
    declares ((declareResponseChannelAndQueue (brokerWith [] uuidA)
      (dialled (brokerWith [] uuidA) "amqp://localhost" "svc")).2.since 1)
      = [{ ch := 1, name := "postman.resp.00010203-0405-0607-0809-0a0b0c0d0e0f",
           durable := true, autoDelete := false, exclusive := true, noWait := false }] ∧
    ¬ ∀ d ∈ declares ((declareResponseChannelAndQueue (brokerWith [] uuidA)
        (dialled (brokerWith [] uuidA) "amqp://localhost" "svc")).2.since 1),
      d.durable = true ∧ d.exclusive = true ∧ d.autoDelete = true ∧ d.noWait = false := by
  decide

/-- C3, amended. Every `QueueDeclare` call that `declareResponseChannelAndQueue`
makes has durable true, auto-delete false, exclusive true and no-wait false; when
the function returns nil it has made exactly one, on the response channel and
for the name it stored in `responseQueueName`. -/
theorem C3_response_queue_is_durable_exclusive_not_auto_delete (b : Broker) (st : State) :
    (∀ d ∈ declares ((declareResponseChannelAndQueue b st).2.since st.calls.length),
      d.durable = true ∧ d.autoDelete = false ∧ d.exclusive = true ∧ d.noWait = false) ∧
    ((declareResponseChannelAndQueue b st).1 = .ok () →
      ∃ d, declares ((declareResponseChannelAndQueue b st).2.since st.calls.length) = [d] ∧
        d.name = (declareResponseChannelAndQueue b st).2.responseQueueName ∧
        some d.ch = (declareResponseChannelAndQueue b st).2.responseChannel) := by
  cases hc : st.conn with
  | none =>
    have h : declareResponseChannelAndQueue b st = (.panic, st) := by
      simp [declareResponseChannelAndQueue, hc]
    rw [h]
    simp [since_self, declares]
  | some c =>
    rcases declareResponse_cases b st c hc with ⟨e, h⟩ | ⟨u, r, h⟩
    · rw [h]
      rw [since_append st _ [.channel c st.calls.length (some e)] rfl]
      simp [declares]
    · rw [h]
      rw [since_append st _ [.channel c st.calls.length none, .newV4 u,
        .queueDeclare st.calls.length ("postman.resp." ++ u.String)
          true false true false none r] rfl]
      simp [declares]

/-- C3 amended, after a successful dial. -/
theorem C3_witness :
    (declareResponseChannelAndQueue (brokerWith [] uuidA)
      (dialled (brokerWith [] uuidA) "amqp://localhost" "svc")).1 = .ok () ∧
    ∃ d, declares ((declareResponseChannelAndQueue (brokerWith [] uuidA)
        (dialled (brokerWith [] uuidA) "amqp://localhost" "svc")).2.since
        (dialled (brokerWith [] uuidA) "amqp://localhost" "svc").calls.length) = [d] ∧
      d.name = (declareResponseChannelAndQueue (brokerWith [] uuidA)
        (dialled (brokerWith [] uuidA) "amqp://localhost" "svc")).2.responseQueueName ∧
      some d.ch = (declareResponseChannelAndQueue (brokerWith [] uuidA)
        (dialled (brokerWith [] uuidA) "amqp://localhost" "svc")).2.responseChannel :=
  ⟨by decide,
    (C3_response_queue_is_durable_exclusive_not_auto_delete (brokerWith [] uuidA)
      (dialled (brokerWith [] uuidA) "amqp://localhost" "svc")).2 (by decide)⟩

/-! ## Failure of `Connect` -/

/-- C7. After `Connect(uri, s)` the service name is `s` and `getRequestQueueName()`
is `"postman.req."` followed by `s`; the name is the same in any two states with
the same service name; every `QueueDeclare` of `ensureRequestQueue` and every
`Consume` of `consumeRequestMessages`, in a state whose service name is `s`,
carries that name; and a successful `Connect` declares the request queue and
consumes from it under that name. -/
theorem C7_request_queue_name_from_service (b : Broker) (uri s : String)
    (st : State) :
    (Connect b uri s st).2.serviceName = s ∧
    getRequestQueueName (Connect b uri s st).2 = "postman.req." ++ s ∧
    (∀ x y : State, x.serviceName = y.serviceName →
      getRequestQueueName x = getRequestQueueName y) ∧
    (∀ x : State, x.serviceName = s →
      (∀ d ∈ declares ((ensureRequestQueue b x).2.since x.calls.length),
        d.name = "postman.req." ++ s) ∧
      (∀ k ∈ consumes ((consumeRequestMessages b x).2.since x.calls.length),
        k.queue = "postman.req." ++ s)) ∧
    ((Connect b uri s st).1 = .ok () →
      ∃ rq rk,
        declares ((Connect b uri s st).2.since st.calls.length)
          = [rq, { ch := st.calls.length + 4, name := "postman.req." ++ s, durable := true,
                   autoDelete := true, exclusive := false, noWait := false }] ∧
        consumes ((Connect b uri s st).2.since st.calls.length)
          = [rk, { ch := st.calls.length + 1, queue := "postman.req." ++ s, consumer := "",
                   autoAck := false, exclusive := false, noLocal := false,
                   noWait := false }]) := by
  obtain ⟨hname, -, h⟩ := Connect_cases b uri s st
  refine ⟨hname, by simp [getRequestQueueName, hname], ?_, ?_, ?_⟩
  · intro x y hxy
    simp [getRequestQueueName, hxy]
  · intro x hx
    constructor
    · cases hc : x.conn with
      | none =>
        have h : ensureRequestQueue b x = (.panic, x) := by simp [ensureRequestQueue, hc]
        rw [h]; simp [since_self, declares]
      | some c =>
        rcases ensureRequestQueue_cases b x c hc with ⟨e, h⟩ | ⟨r, h⟩
        · rw [h, since_append x _ [.channel c x.calls.length (some e)] rfl]
          simp [declares]
        · rw [h, since_append x _ [.channel c x.calls.length none,
            .queueDeclare x.calls.length ("postman.req." ++ x.serviceName)
              true true false false none r] rfl]
          simp [declares, hx]
    · cases hc : x.responseChannel with
      | none =>
        have h : consumeRequestMessages b x = (.panic, x) := by
          simp [consumeRequestMessages, hc]
        rw [h]; simp [since_self, consumes]
      | some ch =>
        rcases consumeRequestMessages_cases b x ch hc with ⟨e, h⟩ | h
        · rw [h, since_append x _ [.consume ch ("postman.req." ++ x.serviceName) "" false
            false false false none (some e)] rfl]
          simp [consumes, hx]
        · rw [h, since_append x _ [.consume ch ("postman.req." ++ x.serviceName) "" false
            false false false none none, .go .request] rfl]
          simp [consumes, hx]
  · intro hok
    rcases h with ⟨e, hr, hc⟩ | ⟨e, hr, hc⟩ | ⟨u, e, hr, hc⟩ | ⟨u, e, hr, hc⟩ |
      ⟨u, e, hr, hc⟩ | ⟨u, e, hr, hc⟩ | ⟨u, e, hr, hc⟩ | ⟨u, hr, -, hc⟩
    all_goals try (rw [hr] at hok; cases hok)
    rw [since_append st _ _ hc]
    exact ⟨_, _, rfl, rfl⟩

/-- C7, on a broker that accepts everything. -/
theorem C7_witness :
    (Connect (brokerWith [] uuidA) "amqp://localhost" "svc" State.init).1 = .ok () ∧
    ∃ rq rk,
      declares ((Connect (brokerWith [] uuidA) "amqp://localhost" "svc" State.init).2.since
          State.init.calls.length)
        = [rq, { ch := State.init.calls.length + 4, name := "postman.req." ++ "svc",
                 durable := true, autoDelete := true, exclusive := false, noWait := false }] ∧
      consumes ((Connect (brokerWith [] uuidA) "amqp://localhost" "svc" State.init).2.since
          State.init.calls.length)
        = [rk, { ch := State.init.calls.length + 1, queue := "postman.req." ++ "svc",
                 consumer := "", autoAck := false, exclusive := false, noLocal := false,
                 noWait := false }] :=
  ⟨by decide,
    (C7_request_queue_name_from_service (brokerWith [] uuidA) "amqp://localhost"
      "svc" State.init).2.2.2.2 (by decide)⟩

/-- C8. A successful `Connect` draws exactly one UUID `u` (the one call of
`getResponseQueueName`); the response queue it declares, the queue its response
consumer is bound to and the stored `responseQueueName` all are `"postman.resp."`
followed by the textual form of `u`; and two successful runs that draw different
UUIDs end with different response queue names. -/
theorem C8_response_queue_name_from_uuid :
    (∀ (b : Broker) (uri s : String) (st : State), (Connect b uri s st).1 = .ok () →
      ∃ u rq rk,
        drawn ((Connect b uri s st).2.since st.calls.length) = [u] ∧
        (Connect b uri s st).2.responseQueueName = "postman.resp." ++ u.String ∧
        declares ((Connect b uri s st).2.since st.calls.length)
          = [{ ch := st.calls.length + 1, name := "postman.resp." ++ u.String,
               durable := true, autoDelete := false, exclusive := true, noWait := false },
             rq] ∧
        consumes ((Connect b uri s st).2.since st.calls.length)
          = [{ ch := st.calls.length + 1, queue := "postman.resp." ++ u.String,
               consumer := "", autoAck := true, exclusive := true, noLocal := false,
               noWait := false }, rk]) ∧
    (∀ (b b' : Broker) (uri uri' s s' : String) (st st' : State),
      (Connect b uri s st).1 = .ok () → (Connect b' uri' s' st').1 = .ok () →
      drawn ((Connect b uri s st).2.since st.calls.length)
        ≠ drawn ((Connect b' uri' s' st').2.since st'.calls.length) →
      (Connect b uri s st).2.responseQueueName
        ≠ (Connect b' uri' s' st').2.responseQueueName) := by
  have ok : ∀ (b : Broker) (uri s : String) (st : State), (Connect b uri s st).1 = .ok () →
      ∃ u, (Connect b uri s st).2.responseQueueName = "postman.resp." ++ u.String ∧
        (Connect b uri s st).2.since st.calls.length = connectCalls uri s st.calls.length u := by
    intro b uri s st hok
    obtain ⟨-, -, h⟩ := Connect_cases b uri s st
    rcases h with ⟨e, hr, hc⟩ | ⟨e, hr, hc⟩ | ⟨u, e, hr, hc⟩ | ⟨u, e, hr, hc⟩ |
      ⟨u, e, hr, hc⟩ | ⟨u, e, hr, hc⟩ | ⟨u, e, hr, hc⟩ | ⟨u, hr, hn, hc⟩
    all_goals try (rw [hr] at hok; cases hok)
    exact ⟨u, hn, since_append st _ _ hc⟩
  constructor
  · intro b uri s st hok
    obtain ⟨u, hn, hs⟩ := ok b uri s st hok
    rw [hs]
    exact ⟨u, _, _, rfl, hn, rfl, rfl⟩
  · intro b b' uri uri' s s' st st' hok hok' hne heq
    obtain ⟨u, hn, hs⟩ := ok b uri s st hok
    obtain ⟨v, hn', hs'⟩ := ok b' uri' s' st' hok'
    rw [hs, hs'] at hne
    rw [hn, hn'] at heq
    rw [responseQueueName_inj u v heq] at hne
    exact hne rfl

/-- C8, on two brokers that accept everything and draw different UUIDs. -/
theorem C8_witness :
    (Connect (brokerWith [] uuidA) "amqp://localhost" "svc" State.init).1 = .ok () ∧
    (Connect (brokerWith [] uuidB) "amqp://localhost" "svc" State.init).1 = .ok () ∧
    drawn ((Connect (brokerWith [] uuidA) "amqp://localhost" "svc" State.init).2.since
        State.init.calls.length)
      ≠ drawn ((Connect (brokerWith [] uuidB) "amqp://localhost" "svc" State.init).2.since
        State.init.calls.length) ∧
    (Connect (brokerWith [] uuidA) "amqp://localhost" "svc" State.init).2.responseQueueName
      ≠ (Connect (brokerWith [] uuidB) "amqp://localhost" "svc"
          State.init).2.responseQueueName :=
  ⟨by decide, by decide, by decide,
    C8_response_queue_name_from_uuid.2 (brokerWith [] uuidA) (brokerWith [] uuidB)
      "amqp://localhost" "amqp://localhost" "svc" "svc" State.init State.init
      (by decide) (by decide) (by decide)⟩

/-! ## The request consumer loop -/

/-- C5. For every processor and every finite sequence of deliveries, the calls of
the request loop other than the starts of the observer hook are, delivery by
delivery in arrival order, `processMessageRequest(d.Body)` followed by
`d.Ack(false)`: each delivery is acknowledged once with multiple false, after its
own processing and before the next, whatever the processor returns.  And the
state the loop ends in is the state reached by applying the processor to the
bodies once each, in arrival order: each body is handed to it exactly once. -/
theorem C5_request_loop_processes_then_acks_in_order (processMessageRequest : Processor)
    (msgs : List Delivery) (st : State) :
    (requestLoop processMessageRequest msgs st).1.filter (fun ev => !ev.isHook)
      = msgs.flatMap (fun d =>
          [LoopEvent.process .request d.Body, LoopEvent.ack d.DeliveryTag false]) ∧
    (requestLoop processMessageRequest msgs st).2
      = msgs.foldl (fun s d => (processMessageRequest d.Body s).2) st := by
  induction msgs generalizing st with
  | nil => exact ⟨rfl, rfl⟩
  | cons d msgs ih =>
    obtain ⟨ih1, ih2⟩ := ih (processMessageRequest d.Body st).2
    constructor
    · simp only [requestLoop, List.flatMap_cons]
      rw [List.filter_append, List.filter_cons, List.filter_cons, ih1]
      cases st.OnNewRequest <;> simp [LoopEvent.isHook]
    · simp only [requestLoop, List.foldl_cons]
      exact ih2

/-- The request loop on two deliveries and a processor that always fails and
records each body it is given in `serviceName`: both are processed, both are
acknowledged, and each body has been handed over once, in order. -/
theorem requestLoop_example :
    (requestLoop failingProcessor
      [{ Body := [1], DeliveryTag := 7 }, { Body := [2], DeliveryTag := 8 }] State.init).1
      = [.process .request [1], .ack 7 false, .process .request [2], .ack 8 false] ∧
    (requestLoop failingProcessor
      [{ Body := [1], DeliveryTag := 7 }, { Body := [2], DeliveryTag := 8 }]
      State.init).2.serviceName = "+1+1" := by
  decide

/-! ## The cache invariant -/

/-- One publisher operation either leaves the cache as it is, or inserts, for the
name it was called with and which had no entry, the channel it has just opened
and on which the inspection of that name has just succeeded. -/
theorem opRun_cases (b : Broker) (op : Op) (st : State) :
    (∃ new, (op.run b st).2.calls = st.calls ++ new ∧
      (op.run b st).2.sendChannels = st.sendChannels) ∨
    (∃ c rest, st.sendChannels op.queueName = none ∧
      (op.run b st).2.calls = st.calls ++ .channel c st.calls.length none ::
        .queueInspect st.calls.length op.queueName none :: rest ∧
      (op.run b st).2.sendChannels
        = fun k => if k = op.queueName then some st.calls.length else st.sendChannels k) := by
  have hg : ∀ q, (∃ new, (getOrCreateChannelForQueue b q st).2.calls = st.calls ++ new ∧
        (getOrCreateChannelForQueue b q st).2.sendChannels = st.sendChannels) ∨
      (∃ c, st.sendChannels q = none ∧
        (getOrCreateChannelForQueue b q st).2.calls = st.calls ++
          [.channel c st.calls.length none, .queueInspect st.calls.length q none] ∧
        (getOrCreateChannelForQueue b q st).2.sendChannels
          = fun k => if k = q then some st.calls.length else st.sendChannels k) := by
    intro q
    rcases getOrCreate_cases b q st with ⟨_, _, e⟩ | ⟨_, e⟩ | ⟨c, x, _, e⟩ | ⟨c, x, _, e⟩ |
      ⟨c, hq, e⟩
    · exact Or.inl ⟨[], by simp [e]⟩
    · exact Or.inl ⟨[], by simp [e]⟩
    · exact Or.inl ⟨[.channel c st.calls.length (some x)], by simp [e, State.log]⟩
    · exact Or.inl ⟨[.channel c st.calls.length none,
        .queueInspect st.calls.length q (some x)], by simp [e, State.log]⟩
    · exact Or.inr ⟨c, hq, by simp [e, State.log, State.setSendChannel]⟩
  cases op with
  | getOrCreateChannelForQueue q =>
    have hrun : (Op.run b (.getOrCreateChannelForQueue q) st).2
        = (getOrCreateChannelForQueue b q st).2 := by
      simp only [Op.run]; split <;> rename_i e <;> simp [e]
    rw [hrun]
    rcases hg q with ⟨new, h1, h2⟩ | ⟨c, h0, h1, h2⟩
    · exact Or.inl ⟨new, h1, h2⟩
    · exact Or.inr ⟨c, [], h0, h1, h2⟩
  | sendMessageToQueue m q =>
    have hrun : (Op.run b (.sendMessageToQueue m q) st).2 = (sendMessageToQueue b m q st).2 := by
      simp only [Op.run]; split <;> rename_i e <;> simp [e]
    rw [hrun, send_sendChannels]
    have hcalls : ∃ rest, (sendMessageToQueue b m q st).2.calls
        = (getOrCreateChannelForQueue b q st).2.calls ++ rest := by
      unfold sendMessageToQueue
      split <;> rename_i e
      · exact ⟨[], by simp [e]⟩
      · exact ⟨[], by simp [e]⟩
      · next ch st1 =>
        exact ⟨[.publish ch "" q false false
            { ContentType := "application/octet-stream", Body := m,
              DeliveryMode := amqp.Persistent }
            (b.Publish st1.calls ch "" q false false
              { ContentType := "application/octet-stream", Body := m,
                DeliveryMode := amqp.Persistent })],
          by simp [e, publishMessage, amqp.Channel.Publish, State.log]⟩
    obtain ⟨rest, hrest⟩ := hcalls
    rcases hg q with ⟨new, h1, h2⟩ | ⟨c, h0, h1, h2⟩
    · exact Or.inl ⟨new ++ rest, by rw [hrest, h1, List.append_assoc], h2⟩
    · exact Or.inr ⟨c, rest, h0, by rw [hrest, h1]; simp [Op.queueName], h2⟩

/-- The invariant of the cache, relative to the length `n` the history had when
the cache was empty: every entry has a successful inspection, of its name on its
channel, among the calls made since. -/
theorem runOps_inspected (b : Broker) (n : Nat) (ops : List Op) (st : State)
    (hn : n ≤ st.calls.length)
    (hinv : ∀ q ch, st.sendChannels q = some ch → Event.queueInspect ch q none ∈ st.since n) :
    ∀ q ch, (runOps b ops st).sendChannels q = some ch →
      Event.queueInspect ch q none ∈ (runOps b ops st).since n := by
  induction ops generalizing st with
  | nil => exact hinv
  | cons op ops ih =>
    have step : n ≤ (op.run b st).2.calls.length ∧ ∀ q ch,
        (op.run b st).2.sendChannels q = some ch →
        Event.queueInspect ch q none ∈ (op.run b st).2.since n := by
      rcases opRun_cases b op st with ⟨new, h1, h2⟩ | ⟨c, rest, h0, h1, h2⟩
      · refine ⟨by rw [h1, List.length_append]; omega, ?_⟩
        intro q ch hq
        rw [h2] at hq
        have := hinv q ch hq
        simp only [State.since] at this ⊢
        rw [h1, List.drop_append_of_le_length hn]
        exact List.mem_append_left _ this
      · refine ⟨by rw [h1, List.length_append]; omega, ?_⟩
        intro q ch hq
        simp only [State.since]
        rw [h1, List.drop_append_of_le_length hn]
        rw [h2] at hq
        simp only at hq
        split at hq
        · next hk =>
          cases hq
          subst hk
          exact List.mem_append_right _ (by simp)
        · exact List.mem_append_left _ (hinv q ch hq)
    simp only [runOps]
    split <;> rename_i e <;> rw [e] at step
    · exact step.2
    · exact ih _ step.1 step.2

/-- C10. Starting from an empty cache, after any finite sequence of
`getOrCreateChannelForQueue` and `sendMessageToQueue` calls: every entry `q ↦ ch`
of the cache has a successful `QueueInspect(q)` on `ch` among the calls made
since; a further call that inserts an entry for `q` does so right after opening
the channel and inspecting `q` on it with success; and a further call neither
removes nor replaces an entry. -/
theorem C10_cache_holds_only_inspected_queues (b : Broker) (st0 : State) (ops : List Op)
    (h0 : st0.sendChannels = fun _ => none) :
    (∀ q ch, (runOps b ops st0).sendChannels q = some ch →
      Event.queueInspect ch q none ∈ (runOps b ops st0).since st0.calls.length) ∧
    (∀ (op : Op) q ch, (runOps b ops st0).sendChannels q = none →
      (op.run b (runOps b ops st0)).2.sendChannels q = some ch →
      ∃ c rest, (op.run b (runOps b ops st0)).2.calls = (runOps b ops st0).calls ++
        .channel c ch none :: .queueInspect ch q none :: rest) ∧
    (∀ (op : Op) q ch, (runOps b ops st0).sendChannels q = some ch →
      (op.run b (runOps b ops st0)).2.sendChannels q = some ch) := by
  refine ⟨?_, ?_, ?_⟩
  · exact runOps_inspected b st0.calls.length ops st0 (Nat.le_refl _)
      (by intro q ch hq; rw [h0] at hq; cases hq)
  · intro op q ch hnone hsome
    rcases opRun_cases b op (runOps b ops st0) with ⟨new, -, h2⟩ | ⟨c, rest, -, h1, h2⟩
    · rw [h2, hnone] at hsome; cases hsome
    · rw [h2] at hsome
      simp only at hsome
      split at hsome
      · next hk =>
        cases hsome
        subst hk
        exact ⟨c, rest, h1⟩
      · rw [hnone] at hsome; cases hsome
  · intro op q ch h
    exact opRun_keeps b op q _ ch h

/-- C10, from the state after a first `Connect`, whose cache is empty, on a broker
that has the queue `postman.req.other` only. -/
theorem C10_witness :
    (connected ["postman.req.other"] uuidA).sendChannels = (fun _ => none) ∧
    (runOps (brokerWith ["postman.req.other"] uuidA)
      [.sendMessageToQueue [1] "postman.req.other", .sendMessageToQueue [2] "postman.req.gone",
        .getOrCreateChannelForQueue "postman.req.other"]
      (connected ["postman.req.other"] uuidA)).sendChannels "postman.req.other" = some 10 ∧
    Event.queueInspect 10 "postman.req.other" none ∈
      (runOps (brokerWith ["postman.req.other"] uuidA)
        [.sendMessageToQueue [1] "postman.req.other",
          .sendMessageToQueue [2] "postman.req.gone",
          .getOrCreateChannelForQueue "postman.req.other"]
        (connected ["postman.req.other"] uuidA)).since
        (connected ["postman.req.other"] uuidA).calls.length :=
  ⟨rfl, by decide,
    (C10_cache_holds_only_inspected_queues (brokerWith ["postman.req.other"] uuidA)
      (connected ["postman.req.other"] uuidA)
      [.sendMessageToQueue [1] "postman.req.other", .sendMessageToQueue [2] "postman.req.gone",
        .getOrCreateChannelForQueue "postman.req.other"] rfl).1 "postman.req.other" 10
      (by decide)⟩

/-! ## The probe channel of an unknown destination -/

/-- `Connect` keeps the numbering of the open channels. -/
theorem Connect_numbered (b : Broker) (uri s : String) (st : State) (h : numbered st.calls) :
    numbered (Connect b uri s st).2.calls := by
  obtain ⟨-, -, hcases⟩ := Connect_cases b uri s st
  rcases hcases with ⟨e, -, hc⟩ | ⟨e, -, hc⟩ | ⟨u, e, -, hc⟩ | ⟨u, e, -, hc⟩ | ⟨u, e, -, hc⟩ |
    ⟨u, e, -, hc⟩ | ⟨u, e, -, hc⟩ | ⟨u, -, -, hc⟩
  all_goals
    rw [hc]
    refine numbered_append st.calls _ h ?_
    simp [opened, connectCalls]

/-- In every state reached from the initial one by calls of `Connect`, `Close`,
`getOrCreateChannelForQueue` and `sendMessageToQueue`, the open channels are
numbered below the length of the history. -/
theorem runCalls_numbered (b : Broker) (history : List Call) (st : State)
    (h : numbered st.calls) : numbered (runCalls b history st).calls := by
  induction history generalizing st with
  | nil => exact h
  | cons c history ih =>
    simp only [runCalls, List.foldl_cons]
    refine ih _ ?_
    cases c with
    | Connect uri service => exact Connect_numbered b uri service st h
    | Close => exact Close_numbered st h
    | getOrCreateChannelForQueue q => exact getOrCreate_numbered b q st h
    | sendMessageToQueue m q => exact send_numbered b m q st h

/-- A failed existence probe, in a state whose open channels are numbered below
the length of the history: the broker has closed the probe channel, and the open
channels are those open before the call. -/
theorem getOrCreate_missing_open (q : String) (st : State) (c : ConnId)
    (e : Error) (h : numbered st.calls) :
    st.calls.length ∉ openChans ((st.log (.channel c st.calls.length none)).log
      (.queueInspect st.calls.length q (some e))) ∧
    openChans ((st.log (.channel c st.calls.length none)).log
      (.queueInspect st.calls.length q (some e))) = openChans st := by
  have hc : ((st.log (.channel c st.calls.length none)).log
      (.queueInspect st.calls.length q (some e))).calls
      = st.calls ++ [.channel c st.calls.length none,
          .queueInspect st.calls.length q (some e)] := by simp [State.log]
  have hkeep : (held st.calls).chans.filter (fun p => p.1 ≠ st.calls.length)
      = (held st.calls).chans := by
    rw [List.filter_eq_self]
    intro p hp
    have := h p hp
    simp only [ne_eq, decide_not, Bool.not_eq_eq_eq_not, Bool.not_true, decide_eq_false_iff_not]
    exact Nat.ne_of_lt this
  have hopen : openChans ((st.log (.channel c st.calls.length none)).log
      (.queueInspect st.calls.length q (some e))) = openChans st := by
    simp only [openChans, hc, held_append, List.foldl_cons, List.foldl_nil, Resources.step,
      List.filter_append, hkeep]
    simp
  refine ⟨?_, hopen⟩
  rw [hopen]
  intro hmem
  simp only [openChans, List.mem_map] at hmem
  obtain ⟨p, hp, hp1⟩ := hmem
  have := h p hp
  rw [hp1] at this
  exact Nat.lt_irrefl _ this

/-- C9. In any state reached from the initial one by calls of `Connect`, `Close`,
`getOrCreateChannelForQueue` and `sendMessageToQueue`: when `q` is not in the
cache and the existence probe on the freshly opened channel fails,
`getOrCreateChannelForQueue(q)` returns the error after exactly two calls,
`conn.Channel()` and the failed `QueueInspect(q)` on the new channel.  The failed
inspection has closed the probe channel (the code makes no `Close` call of its
own), so it is not among the open channels when the error is returned, the open
channels are those open before the call, and the cache is unchanged. -/
theorem C9_failed_probe_leaves_open_channels_unchanged (b0 b : Broker) (history : List Call)
    (q : String) (st1 : State) (c : ConnId) (ch : Chan)
    (hq : (runCalls b0 history State.init).sendChannels q = none)
    (hc : (runCalls b0 history State.init).conn = some c)
    (hch : amqp.Connection.Channel b c (runCalls b0 history State.init) = (.ok ch, st1))
    (hins : (queueExists b ch q st1).1 = false) :
    (getOrCreateChannelForQueue b q (runCalls b0 history State.init)).1
      = .err ("No queue declared for the service \x27" ++ q ++ "\x27") ∧
    (∃ e, (getOrCreateChannelForQueue b q (runCalls b0 history State.init)).2.since
        (runCalls b0 history State.init).calls.length
      = [.channel c ch none, .queueInspect ch q (some e)]) ∧
    ch ∉ openChans (getOrCreateChannelForQueue b q (runCalls b0 history State.init)).2 ∧
    openChans (getOrCreateChannelForQueue b q (runCalls b0 history State.init)).2
      = openChans (runCalls b0 history State.init) ∧
    (getOrCreateChannelForQueue b q (runCalls b0 history State.init)).2.sendChannels
      = (runCalls b0 history State.init).sendChannels := by
  have hnum : numbered (runCalls b0 history State.init).calls :=
    runCalls_numbered b0 history State.init (by intro p hp; simp [State.init, held] at hp)
  generalize runCalls b0 history State.init = st at *
  obtain ⟨rfl, hb, e, hi⟩ := probe_fails b q st st1 c ch hch hins
  rw [getOrCreate_missing b q st c e hq hc hb hi]
  have hs : ((st.log (.channel c st.calls.length none)).log
      (.queueInspect st.calls.length q (some e))).since st.calls.length
      = [.channel c st.calls.length none, .queueInspect st.calls.length q (some e)] :=
    since_append st _ _ (by simp [State.log])
  obtain ⟨h1, h2⟩ := getOrCreate_missing_open q st c e hnum
  exact ⟨rfl, ⟨e, hs⟩, h1, h2, rfl⟩

/-- C9, on a connected instance and a broker without `postman.resp.missing`: the
channels open before and after the failed call are the response channel and
the channel of `ensureRequestQueue`. -/
theorem C9_witness :
    (runCalls (brokerWith [] uuidA) [.Connect "amqp://localhost" "svc"]
      State.init).sendChannels "postman.resp.missing" = none ∧
    (runCalls (brokerWith [] uuidA) [.Connect "amqp://localhost" "svc"] State.init).conn
      = some 0 ∧
    (queueExists (brokerWith [] uuidA) 10 "postman.resp.missing"
      (amqp.Connection.Channel (brokerWith [] uuidA) 0
        (runCalls (brokerWith [] uuidA) [.Connect "amqp://localhost" "svc"]
          State.init)).2).1 = false ∧
    openChans (runCalls (brokerWith [] uuidA) [.Connect "amqp://localhost" "svc"] State.init)
      = [1, 4] ∧
    openChans (getOrCreateChannelForQueue (brokerWith [] uuidA) "postman.resp.missing"
      (runCalls (brokerWith [] uuidA) [.Connect "amqp://localhost" "svc"] State.init)).2
      = openChans (runCalls (brokerWith [] uuidA) [.Connect "amqp://localhost" "svc"]
          State.init) :=
  ⟨by decide, by decide, by decide, by decide,
    (C9_failed_probe_leaves_open_channels_unchanged (brokerWith [] uuidA) (brokerWith [] uuidA)
      [.Connect "amqp://localhost" "svc"] "postman.resp.missing"
      (amqp.Connection.Channel (brokerWith [] uuidA) 0
        (runCalls (brokerWith [] uuidA) [.Connect "amqp://localhost" "svc"] State.init)).2
      0 10 (by decide) (by decide) (Prod.ext rfl rfl) (by decide)).2.2.2.1⟩

/-- After a successful `Connect`, `Close` leaves nothing open. -/
theorem Close_example : isClosed (Close (connected [] uuidA)) := by
  decide

end Postman
